import Mathlib

/-!
Verification development for the Eulerian multigrid-inspired FD8 hydraulic
erosion pipeline.  The compute kernels (WGSL shaders) and the orchestrator
(simulation.js) are embedded shallowly:

* grids are total functions from integer coordinates to rgba cells whose
  channels are exact rationals (the shaders work in f32; every numeric
  literal of the shaders is an exact rational, and all claims investigated
  here are stated in exact arithmetic or up to an explicit tolerance);
* the WGSL built-in pow is not exactly representable over the rationals, so
  the hydraulic kernel is parametrised over the pow implementation
  (an arbitrary function pw with pow-like positivity where a theorem needs
  it), and the jump-flood kernel carries squared distances (the shader
  stores Euclidean distances and only ever compares them, and squaring is an
  order isomorphism on nonnegative reals, so every branch taken is
  identical);
* sequential per-cell shader code becomes a chain of lets, one per mutation.
-/

namespace ErosionSim

/-- One rgba32float texel: four rational channels. -/
structure Cell4 where
  r : ℚ
  g : ℚ
  b : ℚ
  a : ℚ

/-- A 2D grid of texels, total over integer coordinates. -/
abbrev GridFn := ℤ → ℤ → Cell4

/-- const MAX_WATER_PER_CELL: f32 = 1.0 (erosion shader). -/
def MAX_WATER_PER_CELL : ℚ := 1

/-- const INV_SQRT2: f32 = 0.7071067811865475 (the f64 literal in the shader). -/
def INV_SQRT2 : ℚ := 0.7071067811865475

/-- NEIGHBOR_OFFSETS x components, clockwise from northwest (erosion shader). -/
def nOffX : Fin 8 → ℤ := ![-1, 0, 1, 1, 1, 0, -1, -1]

/-- NEIGHBOR_OFFSETS y components, clockwise from northwest (erosion shader). -/
def nOffY : Fin 8 → ℤ := ![1, 1, 1, 0, -1, -1, -1, 0]

/-- NEIGHBOR_INV_DISTANCES (erosion shader). -/
def nInvDist : Fin 8 → ℚ := ![INV_SQRT2, 1, INV_SQRT2, 1, INV_SQRT2, 1, INV_SQRT2, 1]

/-- Sum of the eight entries of a direction-indexed family, as the shader
loops i = 0..7. -/
def sum8 (w : Fin 8 → ℚ) : ℚ :=
  w 0 + w 1 + w 2 + w 3 + w 4 + w 5 + w 6 + w 7

/-- The reciprocal direction index (i + 4) % 8 used by the gather loops. -/
def oppositeDir (i : Fin 8) : Fin 8 := i + 4

/-- fn is_out_of_bounds(pos, dim_x, dim_y) (erosion and redistribution shaders). -/
def oob (sx sy : ℕ) (x y : ℤ) : Prop :=
  x < 0 ∨ (sx : ℤ) ≤ x ∨ y < 0 ∨ (sy : ℤ) ≤ y

instance oob.instDec (sx sy : ℕ) (x y : ℤ) : Decidable (oob sx sy x y) := by
  unfold oob; infer_instance

/-- WGSL clamp(v, lo, hi). -/
def clampQ (v lo hi : ℚ) : ℚ := min (max v lo) hi

/-- WGSL mix(a, b, t) = a * (1 - t) + b * t. -/
def mixQ (a b t : ℚ) : ℚ := a * (1 - t) + b * t

/-- WGSL smoothstep(e0, e1, x), with the interpolation variable t inlined. -/
def smoothstepQ (e0 e1 x : ℚ) : ℚ :=
  clampQ ((x - e0) / (e1 - e0)) 0 1 * clampQ ((x - e0) / (e1 - e0)) 0 1 *
    (3 - 2 * clampQ ((x - e0) / (e1 - e0)) 0 1)

/-- struct ErosionParams (erosion shader uniform block). -/
structure ErosionParams where
  size_x : ℕ
  size_y : ℕ
  iteration : ℕ
  max_iterations : ℕ
  spawn_cycles : ℕ
  deposition_rate : ℚ
  evap_rate : ℚ
  water_height_factor : ℚ
  still_water_relaxation : ℚ
  spawn_density : ℚ
  random_seed : ℕ
  flow_depth_weight : ℚ
  shear_shallow : ℚ
  shear_deep : ℚ

/-- fn get_terrain_height: out-of-bounds reads report height 9999. -/
def get_terrain_height (p : ErosionParams) (terr : GridFn) (x y : ℤ) : ℚ :=
  if oob p.size_x p.size_y x y then 9999 else (terr x y).r

/-- fn get_water_data: out-of-bounds reads report zero water. -/
def get_water_data (p : ErosionParams) (water : GridFn) (x y : ℤ) : Cell4 :=
  if oob p.size_x p.size_y x y then ⟨0, 0, 0, 0⟩ else water x y

/-- fn get_effective_height: terrain plus still water plus a fraction of the
flowing water, scaled by the water height factor; 9999 out of bounds. -/
def get_effective_height (p : ErosionParams) (terr water : GridFn) (x y : ℤ) : ℚ :=
  if oob p.size_x p.size_y x y then 9999
  else
    get_terrain_height p terr x y +
      ((get_water_data p water x y).b +
        p.flow_depth_weight * (get_water_data p water x y).r) * p.water_height_factor

/-- fn laplacian_effective_height: 4-neighborhood discrete Laplacian, with
out-of-bounds neighbors replaced by the center value. -/
def laplacian_effective_height (p : ErosionParams) (terr water : GridFn) (x y : ℤ) : ℚ :=
  let c := get_effective_height p terr water x y
  let contrib := fun (dx dy : ℤ) =>
    if oob p.size_x p.size_y (x + dx) (y + dy) then c
    else get_effective_height p terr water (x + dx) (y + dy)
  (contrib 0 1 + contrib 1 0 + contrib 0 (-1) + contrib (-1) 0) - 4 * c

/-- The adaptive FD8 exponent p = mix(0.8, 2.5, clamp(-lap * 50, 0, 1))
computed at the head of compute_normalized_flow_weights. -/
def adaptive_exponent (p : ErosionParams) (terr water : GridFn) (x y : ℤ) : ℚ :=
  mixQ 0.8 2.5 (clampQ (-(laplacian_effective_height p terr water x y) * 50) 0 1)

/-- The un-normalized weight of one direction inside
compute_normalized_flow_weights: zero for out-of-bounds or non-downhill
neighbors, otherwise pw applied to the distance-corrected slope and the
adaptive exponent.  pw stands for the WGSL pow built-in. -/
def raw_flow_weight (pw : ℚ → ℚ → ℚ) (p : ErosionParams) (terr water : GridFn)
    (x y : ℤ) (i : Fin 8) : ℚ :=
  if oob p.size_x p.size_y (x + nOffX i) (y + nOffY i) then 0
  else if get_effective_height p terr water x y -
      get_effective_height p terr water (x + nOffX i) (y + nOffY i) ≤ 0 then 0
  else
    pw (max ((get_effective_height p terr water x y -
        get_effective_height p terr water (x + nOffX i) (y + nOffY i)) * nInvDist i)
        (1 / 100000000))
      (adaptive_exponent p terr water x y)

/-- fn compute_normalized_flow_weights: raw weights divided by their total
when the total is positive, all zeros otherwise. -/
def compute_normalized_flow_weights (pw : ℚ → ℚ → ℚ) (p : ErosionParams)
    (terr water : GridFn) (x y : ℤ) (i : Fin 8) : ℚ :=
  if 0 < sum8 (raw_flow_weight pw p terr water x y) then
    raw_flow_weight pw p terr water x y i / sum8 (raw_flow_weight pw p terr water x y)
  else 0

/-- One direction of the gather loop of fn accumulate_water_and_sediment:
flowing water and sediment received from the neighbor in direction i. -/
def gather_flow (pw : ℚ → ℚ → ℚ) (p : ErosionParams) (terr water : GridFn)
    (x y : ℤ) (i : Fin 8) : ℚ × ℚ :=
  if oob p.size_x p.size_y (x + nOffX i) (y + nOffY i) then (0, 0)
  else
    let nw := get_water_data p water (x + nOffX i) (y + nOffY i)
    if nw.r ≤ 0 ∨ get_effective_height p terr water (x + nOffX i) (y + nOffY i) ≤
        get_effective_height p terr water x y then (0, 0)
    else
      let f := compute_normalized_flow_weights pw p terr water
        (x + nOffX i) (y + nOffY i) (oppositeDir i)
      if 0 < f then (nw.r * f, nw.g * f) else (0, 0)

/-- fn accumulate_water_and_sediment: totals of the eight gather directions. -/
def accumulate_water_and_sediment (pw : ℚ → ℚ → ℚ) (p : ErosionParams)
    (terr water : GridFn) (x y : ℤ) : ℚ × ℚ :=
  (sum8 fun i => (gather_flow pw p terr water x y i).1,
   sum8 fun i => (gather_flow pw p terr water x y i).2)

/-- 2^32, the modulus of u32 arithmetic. -/
def U32 : ℕ := 4294967296

/-- fn pcg2d, u32 vector arithmetic modelled on naturals mod 2^32. -/
def pcg2d (px py : ℕ) : ℕ × ℕ :=
  let vx0 := (px * 1664525 + 1013904223) % U32
  let vy0 := (py * 1664525 + 1013904223) % U32
  let vx1 := (vx0 + vy0 * 1664525) % U32
  let vy1 := (vy0 + vx1 * 1664525) % U32
  let vx2 := vx1 ^^^ (vx1 >>> 16)
  let vy2 := vy1 ^^^ (vy1 >>> 16)
  let vx3 := (vx2 + vy2 * 1664525) % U32
  let vy3 := (vy2 + vx3 * 1664525) % U32
  (vx3 ^^^ (vx3 >>> 16), vy3 ^^^ (vy3 >>> 16))

/-- fn hash_to_float: hash scaled into [0,1] by 1/(2^32 - 1). -/
def hash_to_float (h : ℕ) : ℚ := (h : ℚ) / 4294967295

/-- fn should_spawn_droplet: only during the first spawn_cycles iterations,
by a pure hash of cell coordinate, seed and iteration. -/
def should_spawn_droplet (p : ErosionParams) (x y : ℤ) : Prop :=
  p.iteration < p.spawn_cycles ∧
    hash_to_float (pcg2d ((x.toNat + p.random_seed) % U32) ((y.toNat + p.iteration) % U32)).1 <
      p.spawn_density

instance should_spawn_droplet.instDec (p : ErosionParams) (x y : ℤ) :
    Decidable (should_spawn_droplet p x y) := by
  unfold should_spawn_droplet; infer_instance

/-- total_flow_weight of the kernel main: sum of the normalized weights. -/
def total_flow_weight_at (pw : ℚ → ℚ → ℚ) (p : ErosionParams)
    (terr water : GridFn) (x y : ℤ) : ℚ :=
  sum8 (compute_normalized_flow_weights pw p terr water x y)

/-- The remobilization step of the kernel main: water and sediment moved from
the still pool back to flow when a downslope path exists. -/
def remobilized (pw : ℚ → ℚ → ℚ) (p : ErosionParams) (terr water : GridFn)
    (x y : ℤ) : ℚ × ℚ :=
  if 0 < (water x y).b ∧ 0 < total_flow_weight_at pw p terr water x y then
    let actual_remobilize := min ((water x y).b * p.still_water_relaxation) MAX_WATER_PER_CELL
    (actual_remobilize, (water x y).a * (actual_remobilize / (water x y).b))
  else (0, 0)

/-- The pit-handling guard of the kernel main: no downslope path and local
flowing water present. -/
def pit_active (pw : ℚ → ℚ → ℚ) (p : ErosionParams) (terr water : GridFn)
    (x y : ℤ) : Prop :=
  total_flow_weight_at pw p terr water x y ≤ 0 ∧ 0 < (water x y).r

instance pit_active.instDec (pw : ℚ → ℚ → ℚ) (p : ErosionParams)
    (terr water : GridFn) (x y : ℤ) : Decidable (pit_active pw p terr water x y) := by
  unfold pit_active; infer_instance

/-- water_accumulator of the kernel main: evaporated gathered inflow plus
remobilized still water. -/
def gathered_water (pw : ℚ → ℚ → ℚ) (p : ErosionParams) (terr water : GridFn)
    (x y : ℤ) : ℚ :=
  (accumulate_water_and_sediment pw p terr water x y).1 * (1 - p.evap_rate) +
    (remobilized pw p terr water x y).1

/-- sediment_accumulator of the kernel main before bed exchange. -/
def gathered_sediment (pw : ℚ → ℚ → ℚ) (p : ErosionParams) (terr water : GridFn)
    (x y : ℤ) : ℚ :=
  (accumulate_water_and_sediment pw p terr water x y).2 +
    (remobilized pw p terr water x y).2

/-- The flow-weighted average downhill slope of the bed-exchange step. -/
def avg_slope_at (pw : ℚ → ℚ → ℚ) (p : ErosionParams) (terr water : GridFn)
    (x y : ℤ) : ℚ :=
  sum8 fun i =>
    if 0 < compute_normalized_flow_weights pw p terr water x y i then
      max (((terr x y).r - get_terrain_height p terr (x + nOffX i) (y + nOffY i)) * nInvDist i) 0 *
        compute_normalized_flow_weights pw p terr water x y i
    else 0

/-- The signed bed exchange of the kernel main (positive erodes terrain). -/
def bed_exchange (pw : ℚ → ℚ → ℚ) (p : ErosionParams) (terr water : GridFn)
    (x y : ℤ) : ℚ :=
  p.deposition_rate *
    (gathered_water pw p terr water x y * avg_slope_at pw p terr water x y *
      smoothstepQ p.shear_shallow p.shear_deep
        (((water x y).b + p.flow_depth_weight * gathered_water pw p terr water x y) *
          p.water_height_factor * avg_slope_at pw p terr water x y) -
      gathered_sediment pw p terr water x y)

/-- sediment_accumulator of the kernel main after the bed-exchange step. -/
def sediment_after_exchange (pw : ℚ → ℚ → ℚ) (p : ErosionParams)
    (terr water : GridFn) (x y : ℤ) : ℚ :=
  if 0 < total_flow_weight_at pw p terr water x y ∧ 0 < gathered_water pw p terr water x y then
    gathered_sediment pw p terr water x y + bed_exchange pw p terr water x y
  else gathered_sediment pw p terr water x y

/-- next_still_water of the kernel main just before the final cap step:
the persistent pool minus remobilization plus demobilized pit water. -/
def still_water_pre_cap (pw : ℚ → ℚ → ℚ) (p : ErosionParams) (terr water : GridFn)
    (x y : ℤ) : ℚ :=
  (water x y).b - (remobilized pw p terr water x y).1 +
    (if pit_active pw p terr water x y then (water x y).r * (1 - p.evap_rate) else 0)

/-- next_still_sediment of the kernel main just before the final cap step. -/
def still_sediment_pre_cap (pw : ℚ → ℚ → ℚ) (p : ErosionParams) (terr water : GridFn)
    (x y : ℤ) : ℚ :=
  if pit_active pw p terr water x y ∧ 0 < (water x y).g + (water x y).a then
    max 0 ((water x y).g -
        ((water x y).g + (water x y).a) * p.deposition_rate *
          ((water x y).g / ((water x y).g + (water x y).a))) +
      max 0 ((water x y).a -
        (((water x y).g + (water x y).a) * p.deposition_rate -
          ((water x y).g + (water x y).a) * p.deposition_rate *
            ((water x y).g / ((water x y).g + (water x y).a))))
  else (water x y).a - (remobilized pw p terr water x y).2

/-- next_height of the kernel main: pit deposition and bed exchange applied
to the terrain channel. -/
def next_height_at (pw : ℚ → ℚ → ℚ) (p : ErosionParams) (terr water : GridFn)
    (x y : ℤ) : ℚ :=
  (terr x y).r +
    (if pit_active pw p terr water x y ∧ 0 < (water x y).g + (water x y).a then
      ((water x y).g + (water x y).a) * p.deposition_rate
    else 0) -
    (if 0 < total_flow_weight_at pw p terr water x y ∧
        0 < gathered_water pw p terr water x y then
      bed_exchange pw p terr water x y
    else 0)

/-- The droplet volume injected this iteration (MAX_WATER_PER_CELL * 0.5 when
the deterministic hash spawns a droplet, else zero). -/
def spawn_amount (p : ErosionParams) (x y : ℤ) : ℚ :=
  if should_spawn_droplet p x y then MAX_WATER_PER_CELL * 0.5 else 0

/-- fn main of the hydraulic erosion kernel: the terrain and water texels
written for an in-bounds invocation at (x, y). -/
def erosion_kernel_main (pw : ℚ → ℚ → ℚ) (p : ErosionParams) (terr water : GridFn)
    (x y : ℤ) : Cell4 × Cell4 :=
  let wacc := gathered_water pw p terr water x y
  let sacc := sediment_after_exchange pw p terr water x y
  let terrOut : Cell4 :=
    ⟨next_height_at pw p terr water x y, (terr x y).g, (terr x y).b, (terr x y).a⟩
  let waterOut : Cell4 :=
    if MAX_WATER_PER_CELL < wacc then
      ⟨spawn_amount p x y + MAX_WATER_PER_CELL,
       sacc - sacc * ((wacc - MAX_WATER_PER_CELL) / wacc),
       still_water_pre_cap pw p terr water x y + (wacc - MAX_WATER_PER_CELL),
       still_sediment_pre_cap pw p terr water x y + sacc * ((wacc - MAX_WATER_PER_CELL) / wacc)⟩
    else
      ⟨spawn_amount p x y + wacc,
       sacc,
       still_water_pre_cap pw p terr water x y,
       still_sediment_pre_cap pw p terr water x y⟩
  (terrOut, waterOut)

end ErosionSim

namespace ErosionSim

/-- Direction i leads downhill from (x, y): the neighbor is in bounds and has
strictly lower effective height. -/
def downhill (p : ErosionParams) (terr water : GridFn) (x y : ℤ) (i : Fin 8) : Prop :=
  ¬ oob p.size_x p.size_y (x + nOffX i) (y + nOffY i) ∧
    get_effective_height p terr water (x + nOffX i) (y + nOffY i) <
      get_effective_height p terr water x y

lemma sum8_eq_finsum (w : Fin 8 → ℚ) : sum8 w = ∑ i : Fin 8, w i := by
  rw [Fin.sum_univ_eight]; rfl

lemma sum8_nonneg {w : Fin 8 → ℚ} (h : ∀ i, 0 ≤ w i) : 0 ≤ sum8 w := by
  rw [sum8_eq_finsum]
  exact Finset.sum_nonneg fun i _ => h i

lemma sum8_pos {w : Fin 8 → ℚ} (h : ∀ i, 0 ≤ w i) (i : Fin 8) (hi : 0 < w i) :
    0 < sum8 w := by
  rw [sum8_eq_finsum]
  exact Finset.sum_pos' (fun j _ => h j) ⟨i, Finset.mem_univ i, hi⟩

lemma sum8_div (w : Fin 8 → ℚ) (c : ℚ) : sum8 (fun i => w i / c) = sum8 w / c := by
  unfold sum8; ring

lemma raw_flow_weight_nonneg {pw : ℚ → ℚ → ℚ} (hpw : ∀ a e, 0 < a → 0 < pw a e)
    (p : ErosionParams) (terr water : GridFn) (x y : ℤ) (i : Fin 8) :
    0 ≤ raw_flow_weight pw p terr water x y i := by
  unfold raw_flow_weight
  split
  · exact le_refl 0
  · split
    · exact le_refl 0
    · exact le_of_lt (hpw _ _ (lt_of_lt_of_le (by norm_num) (le_max_right _ _)))

lemma raw_flow_weight_pos {pw : ℚ → ℚ → ℚ} (hpw : ∀ a e, 0 < a → 0 < pw a e)
    (p : ErosionParams) (terr water : GridFn) (x y : ℤ) (i : Fin 8)
    (hd : downhill p terr water x y i) :
    0 < raw_flow_weight pw p terr water x y i := by
  obtain ⟨hin, hlt⟩ := hd
  unfold raw_flow_weight
  rw [if_neg hin, if_neg (by simp only [not_le]; linarith)]
  exact hpw _ _ (lt_of_lt_of_le (by norm_num) (le_max_right _ _))

lemma raw_flow_weight_zero_of_not_downhill {pw : ℚ → ℚ → ℚ}
    (p : ErosionParams) (terr water : GridFn) (x y : ℤ) (i : Fin 8)
    (hd : ¬ downhill p terr water x y i) :
    raw_flow_weight pw p terr water x y i = 0 := by
  unfold raw_flow_weight
  by_cases hin : oob p.size_x p.size_y (x + nOffX i) (y + nOffY i)
  · rw [if_pos hin]
  · rw [if_neg hin]
    have hle : get_effective_height p terr water x y -
        get_effective_height p terr water (x + nOffX i) (y + nOffY i) ≤ 0 := by
      by_contra hgt
      exact hd ⟨hin, by linarith [not_le.mp hgt]⟩
    simp only [hle, if_pos]

/-- C7. In the hydraulic erosion kernel the eight normalized outgoing flow
weights are each nonnegative; they sum to exactly 1 (in exact arithmetic)
whenever at least one in-bounds neighbor has strictly lower effective height,
and they are all 0 when no downhill neighbor exists.  The statement holds for
every pow implementation pw that is positive on positive bases, as the WGSL
pow is on the bases max(slope, 1e-8) used here. -/
theorem flow_weights_partition_of_unity (pw : ℚ → ℚ → ℚ)
    (hpw : ∀ a e, 0 < a → 0 < pw a e) (p : ErosionParams) (terr water : GridFn)
    (x y : ℤ) :
    (∀ i, 0 ≤ compute_normalized_flow_weights pw p terr water x y i) ∧
    ((∃ i, downhill p terr water x y i) →
      sum8 (compute_normalized_flow_weights pw p terr water x y) = 1) ∧
    ((¬ ∃ i, downhill p terr water x y i) →
      ∀ i, compute_normalized_flow_weights pw p terr water x y i = 0) := by
  have hraw : ∀ i, 0 ≤ raw_flow_weight pw p terr water x y i :=
    raw_flow_weight_nonneg hpw p terr water x y
  refine ⟨?_, ?_, ?_⟩
  · intro i
    unfold compute_normalized_flow_weights
    split
    · exact div_nonneg (hraw i) (le_of_lt (by assumption))
    · exact le_refl 0
  · rintro ⟨i, hi⟩
    have htot : 0 < sum8 (raw_flow_weight pw p terr water x y) :=
      sum8_pos hraw i (raw_flow_weight_pos hpw p terr water x y i hi)
    unfold compute_normalized_flow_weights
    simp only [if_pos htot]
    rw [sum8_div]
    exact div_self (ne_of_gt htot)
  · intro hnone i
    have hz : raw_flow_weight pw p terr water x y i = 0 :=
      raw_flow_weight_zero_of_not_downhill p terr water x y i fun hd => hnone ⟨i, hd⟩
    unfold compute_normalized_flow_weights
    split
    · rw [hz, zero_div]
    · rfl

/-- C8. The adaptive FD8 flow-distribution exponent always lies in
[0.8, 2.5], for every grid, configuration and cell, whatever the sign or
magnitude of the Laplacian curvature proxy. -/
theorem adaptive_exponent_bounds (p : ErosionParams) (terr water : GridFn)
    (x y : ℤ) :
    (0.8 : ℚ) ≤ adaptive_exponent p terr water x y ∧
      adaptive_exponent p terr water x y ≤ 2.5 := by
  unfold adaptive_exponent mixQ clampQ
  set v := -(laplacian_effective_height p terr water x y) * 50 with hv
  have h0 : (0 : ℚ) ≤ min (max v 0) 1 :=
    le_min (le_max_right v 0) (by norm_num)
  have h1 : min (max v 0) 1 ≤ 1 := min_le_right _ _
  constructor <;> nlinarith [h0, h1]

/-- C9. Out-of-bounds neighbors read effective height 9999, and the
normalized flow weight toward every out-of-bounds direction is 0 for any cell
whose own effective height is below 9999, so no flowing water or sediment is
routed off the grid edge: the grid is a closed basin under flow routing. -/
theorem closed_basin_boundary_weights (pw : ℚ → ℚ → ℚ) (p : ErosionParams)
    (terr water : GridFn) (x y : ℤ) (i : Fin 8)
    (hoob : oob p.size_x p.size_y (x + nOffX i) (y + nOffY i))
    (hself : get_effective_height p terr water x y < 9999) :
    get_effective_height p terr water (x + nOffX i) (y + nOffY i) = 9999 ∧
    compute_normalized_flow_weights pw p terr water x y i = 0 := by
  constructor
  · unfold get_effective_height
    rw [if_pos hoob]
  · have hz : raw_flow_weight pw p terr water x y i = 0 := by
      unfold raw_flow_weight
      rw [if_pos hoob]
    unfold compute_normalized_flow_weights
    split
    · rw [hz, zero_div]
    · rfl

end ErosionSim

namespace ErosionSim

/-- struct StillWaterParams (redistribution shader and Margolus shader
uniform block). -/
structure StillWaterParams where
  size_x : ℕ
  size_y : ℕ
  water_height_factor : ℚ
  still_water_relaxation : ℚ

/-- Effective height used by the still-water redistribution kernel: terrain
plus still water scaled by the water height factor (flowing water ignored). -/
def swr_effective_height (sw : StillWaterParams) (terr water : GridFn) (x y : ℤ) : ℚ :=
  (terr x y).r + (water x y).b * sw.water_height_factor

/-- The un-normalized weight of one direction inside
compute_normalized_still_water_weights: the distance-corrected slope of the
still-water surface, zero for out-of-bounds neighbors or drops below the
1e-5 threshold. -/
def swr_raw_weight (sw : StillWaterParams) (terr water : GridFn)
    (x y : ℤ) (i : Fin 8) : ℚ :=
  if oob sw.size_x sw.size_y (x + nOffX i) (y + nOffY i) then 0
  else if swr_effective_height sw terr water x y -
      swr_effective_height sw terr water (x + nOffX i) (y + nOffY i) ≤ 1 / 100000 then 0
  else
    (swr_effective_height sw terr water x y -
      swr_effective_height sw terr water (x + nOffX i) (y + nOffY i)) * nInvDist i

/-- fn compute_normalized_still_water_weights. -/
def swr_weights (sw : StillWaterParams) (terr water : GridFn)
    (x y : ℤ) (i : Fin 8) : ℚ :=
  if 0 < sum8 (swr_raw_weight sw terr water x y) then
    swr_raw_weight sw terr water x y i / sum8 (swr_raw_weight sw terr water x y)
  else 0

/-- One direction of the gather loop of fn accumulate_still_water_and_sediment:
still water and sediment received from the neighbor in direction i, already
limited by the relaxation factor on the giving side. -/
def swr_gather (sw : StillWaterParams) (terr water : GridFn)
    (x y : ℤ) (i : Fin 8) : ℚ × ℚ :=
  if oob sw.size_x sw.size_y (x + nOffX i) (y + nOffY i) then (0, 0)
  else if (water (x + nOffX i) (y + nOffY i)).b ≤ 0 ∨
      swr_effective_height sw terr water (x + nOffX i) (y + nOffY i) ≤
        swr_effective_height sw terr water x y then (0, 0)
  else if 0 < swr_weights sw terr water (x + nOffX i) (y + nOffY i) (oppositeDir i) then
    (min ((water (x + nOffX i) (y + nOffY i)).b *
        swr_weights sw terr water (x + nOffX i) (y + nOffY i) (oppositeDir i))
      (sw.still_water_relaxation * (water (x + nOffX i) (y + nOffY i)).b *
        swr_weights sw terr water (x + nOffX i) (y + nOffY i) (oppositeDir i)),
     (if 0 < (water (x + nOffX i) (y + nOffY i)).b then
        min ((water (x + nOffX i) (y + nOffY i)).b *
            swr_weights sw terr water (x + nOffX i) (y + nOffY i) (oppositeDir i))
          (sw.still_water_relaxation * (water (x + nOffX i) (y + nOffY i)).b *
            swr_weights sw terr water (x + nOffX i) (y + nOffY i) (oppositeDir i)) *
          ((water (x + nOffX i) (y + nOffY i)).a / (water (x + nOffX i) (y + nOffY i)).b)
      else 0))
  else (0, 0)

/-- The inflow totals of fn accumulate_still_water_and_sediment. -/
def swr_inflow (sw : StillWaterParams) (terr water : GridFn) (x y : ℤ) : ℚ × ℚ :=
  (sum8 fun i => (swr_gather sw terr water x y i).1,
   sum8 fun i => (swr_gather sw terr water x y i).2)

/-- The potential outflow of the redistribution kernel main: still water
limited by the relaxation factor times the total outflow weight, with
concentration-proportional sediment. -/
def swr_outflow (sw : StillWaterParams) (terr water : GridFn) (x y : ℤ) : ℚ × ℚ :=
  if 0 < sum8 (swr_weights sw terr water x y) ∧ 0 < (water x y).b then
    (min ((water x y).b)
      (sw.still_water_relaxation * (water x y).b * sum8 (swr_weights sw terr water x y)),
     min ((water x y).b)
        (sw.still_water_relaxation * (water x y).b * sum8 (swr_weights sw terr water x y)) *
      ((water x y).a / (water x y).b))
  else (0, 0)

/-- fn main of the still-water redistribution kernel: flowing channels pass
through, still channels gain net inflow minus outflow. -/
def swr_kernel_main (sw : StillWaterParams) (terr water : GridFn) (x y : ℤ) : Cell4 :=
  ⟨(water x y).r, (water x y).g,
   (water x y).b + ((swr_inflow sw terr water x y).1 - (swr_outflow sw terr water x y).1),
   (water x y).a + ((swr_inflow sw terr water x y).2 - (swr_outflow sw terr water x y).2)⟩

/-- struct MargolusParams (Margolus shader uniform block). -/
structure MargolusParams where
  size_x : ℕ
  size_y : ℕ
  offset_x : ℕ
  offset_y : ℕ
  num_iterations : ℕ

/-- fn _in_bounds of the Margolus shader. -/
def m_in_bounds (sx sy : ℕ) (x y : ℤ) : Prop :=
  0 ≤ x ∧ 0 ≤ y ∧ x < (sx : ℤ) ∧ y < (sy : ℤ)

instance m_in_bounds.instDec (sx sy : ℕ) (x y : ℤ) : Decidable (m_in_bounds sx sy x y) := by
  unfold m_in_bounds; infer_instance

/-- fn _precompute_mask: whether block cell (dx, dy) of the 2x2 block with
top-left corner (x0, y0) lies on the grid. -/
def margolus_mask (mp : MargolusParams) (x0 y0 : ℤ) (dy dx : Fin 2) : Prop :=
  m_in_bounds mp.size_x mp.size_y (x0 + (dx : ℤ)) (y0 + (dy : ℤ))

instance margolus_mask.instDec (mp : MargolusParams) (x0 y0 : ℤ) (dy dx : Fin 2) :
    Decidable (margolus_mask mp x0 y0 dy dx) := by
  unfold margolus_mask; infer_instance

/-- The valid terrain heights of a block, gathered in the loop order of
binary_search_water_level (dy outer, dx inner). -/
def margolus_valid_heights (mp : MargolusParams) (terr : GridFn) (x0 y0 : ℤ) : List ℚ :=
  (if margolus_mask mp x0 y0 0 0 then [(terr x0 y0).r] else []) ++
  (if margolus_mask mp x0 y0 0 1 then [(terr (x0 + 1) y0).r] else []) ++
  (if margolus_mask mp x0 y0 1 0 then [(terr x0 (y0 + 1)).r] else []) ++
  (if margolus_mask mp x0 y0 1 1 then [(terr (x0 + 1) (y0 + 1)).r] else [])

/-- The total still water of a block converted to height units (the loop in
fn main just before the solver call). -/
def margolus_total_water_height (mp : MargolusParams) (sw : StillWaterParams)
    (terr water : GridFn) (x0 y0 : ℤ) : ℚ :=
  (if margolus_mask mp x0 y0 0 0 then (water x0 y0).b * sw.water_height_factor else 0) +
  (if margolus_mask mp x0 y0 0 1 then (water (x0 + 1) y0).b * sw.water_height_factor else 0) +
  (if margolus_mask mp x0 y0 1 0 then (water x0 (y0 + 1)).b * sw.water_height_factor else 0) +
  (if margolus_mask mp x0 y0 1 1 then (water (x0 + 1) (y0 + 1)).b * sw.water_height_factor else 0)

/-- The water_needed sum of the bisection loop: how much water a candidate
level lvl requires over the valid heights. -/
def water_needed (valid : List ℚ) (lvl : ℚ) : ℚ :=
  (valid.map fun v => max 0 (lvl - v)).sum

/-- min over a list with the f32 initialization 1e20 of the shader. -/
def list_min (l : List ℚ) : ℚ := l.foldl min (10 ^ 20)

/-- max over a list with the f32 initialization -1e20 of the shader. -/
def list_max (l : List ℚ) : ℚ := l.foldl max (-(10 ^ 20))

/-- The bisection loop of binary_search_water_level, shrinking (low, high)
for the given number of iterations. -/
def bisect_go (valid : List ℚ) (tw : ℚ) : ℕ → ℚ × ℚ → ℚ × ℚ
  | 0, lh => lh
  | k + 1, lh =>
      if water_needed valid ((lh.1 + lh.2) / 2) < tw then
        bisect_go valid tw k ((lh.1 + lh.2) / 2, lh.2)
      else
        bisect_go valid tw k (lh.1, (lh.1 + lh.2) / 2)

/-- fn binary_search_water_level, over the list of valid heights it gathers
from the masked block. -/
def binary_search_water_level (valid : List ℚ) (tw : ℚ) (iters : ℕ) : ℚ :=
  if tw ≤ 0 ∨ valid.length = 0 then list_min valid
  else
    ((bisect_go valid tw iters
        (list_min valid, list_max valid + tw / (valid.length : ℚ))).1 +
     (bisect_go valid tw iters
        (list_min valid, list_max valid + tw / (valid.length : ℚ))).2) / 2

/-- The water level solved for a block by the Margolus kernel. -/
def margolus_water_level (mp : MargolusParams) (sw : StillWaterParams)
    (terr water : GridFn) (x0 y0 : ℤ) : ℚ :=
  binary_search_water_level (margolus_valid_heights mp terr x0 y0)
    (margolus_total_water_height mp sw terr water x0 y0) mp.num_iterations

/-- The water texel written by the Margolus kernel for block cell (dx, dy) of
the block with top-left (x0, y0): still water is leveled, the other channels
are copied from the input; cells off the grid keep their value (the pre-pass
copy of the orchestrator). -/
def margolus_cell_out (mp : MargolusParams) (sw : StillWaterParams)
    (terr water : GridFn) (x0 y0 : ℤ) (dy dx : Fin 2) : Cell4 :=
  if margolus_mask mp x0 y0 dy dx then
    ⟨(water (x0 + (dx : ℤ)) (y0 + (dy : ℤ))).r,
     (water (x0 + (dx : ℤ)) (y0 + (dy : ℤ))).g,
     max 0 (margolus_water_level mp sw terr water x0 y0 -
        (terr (x0 + (dx : ℤ)) (y0 + (dy : ℤ))).r) /
       max sw.water_height_factor (1 / 10 ^ 12),
     (water (x0 + (dx : ℤ)) (y0 + (dy : ℤ))).a⟩
  else water (x0 + (dx : ℤ)) (y0 + (dy : ℤ))

end ErosionSim

namespace ErosionSim

lemma foldl_min_le_init : ∀ (l : List ℚ) (init : ℚ), l.foldl min init ≤ init := by
  intro l
  induction l with
  | nil => intro init; exact le_refl init
  | cons v t ih =>
      intro init
      exact le_trans (ih (min init v)) (min_le_left init v)

lemma foldl_min_le_mem : ∀ (l : List ℚ) (init x : ℚ), x ∈ l → l.foldl min init ≤ x := by
  intro l
  induction l with
  | nil => intro init x hx; cases hx
  | cons v t ih =>
      intro init x hx
      rcases List.mem_cons.mp hx with h | h
      · subst h
        exact le_trans (foldl_min_le_init t (min init x)) (min_le_right init x)
      · exact ih (min init v) x h

lemma init_le_foldl_max : ∀ (l : List ℚ) (init : ℚ), init ≤ l.foldl max init := by
  intro l
  induction l with
  | nil => intro init; exact le_refl init
  | cons v t ih =>
      intro init
      exact le_trans (le_max_left init v) (ih (max init v))

lemma mem_le_foldl_max : ∀ (l : List ℚ) (init x : ℚ), x ∈ l → x ≤ l.foldl max init := by
  intro l
  induction l with
  | nil => intro init x hx; cases hx
  | cons v t ih =>
      intro init x hx
      rcases List.mem_cons.mp hx with h | h
      · subst h
        exact le_trans (le_max_right init x) (init_le_foldl_max t (max init x))
      · exact ih (max init v) x h

lemma list_min_le {l : List ℚ} {x : ℚ} (hx : x ∈ l) : list_min l ≤ x :=
  foldl_min_le_mem l _ x hx

lemma le_list_max {l : List ℚ} {x : ℚ} (hx : x ∈ l) : x ≤ list_max l :=
  mem_le_foldl_max l _ x hx

lemma list_min_le_list_max {l : List ℚ} (h : l ≠ []) : list_min l ≤ list_max l := by
  obtain ⟨v, t, rfl⟩ := List.exists_cons_of_ne_nil h
  exact le_trans (list_min_le (List.mem_cons_self v t)) (le_list_max (List.mem_cons_self v t))

lemma water_needed_nonneg (valid : List ℚ) (lvl : ℚ) : 0 ≤ water_needed valid lvl := by
  unfold water_needed
  induction valid with
  | nil => simp
  | cons v t ih =>
      simp only [List.map_cons, List.sum_cons]
      exact add_nonneg (le_max_left 0 (lvl - v)) ih

lemma water_needed_mono (valid : List ℚ) {a b : ℚ} (h : a ≤ b) :
    water_needed valid a ≤ water_needed valid b := by
  unfold water_needed
  induction valid with
  | nil => simp
  | cons v t ih =>
      simp only [List.map_cons, List.sum_cons]
      exact add_le_add (max_le_max (le_refl 0) (by linarith)) ih

lemma water_needed_lipschitz (valid : List ℚ) {a b : ℚ} (h : a ≤ b) :
    water_needed valid b - water_needed valid a ≤ (valid.length : ℚ) * (b - a) := by
  unfold water_needed
  induction valid with
  | nil => simp
  | cons v t ih =>
      simp only [List.map_cons, List.sum_cons, List.length_cons]
      have hterm : max 0 (b - v) - max 0 (a - v) ≤ b - a := by
        rcases le_total (b - v) 0 with h1 | h1 <;> rcases le_total (a - v) 0 with h2 | h2
        · rw [max_eq_left h1, max_eq_left h2]; linarith
        · rw [max_eq_left h1, max_eq_right h2]; linarith
        · rw [max_eq_right h1, max_eq_left h2]; linarith
        · rw [max_eq_right h1, max_eq_right h2]; linarith
      push_cast
      nlinarith [ih]

lemma water_needed_eq_zero_of_le (valid : List ℚ) (lvl : ℚ)
    (h : ∀ v ∈ valid, lvl ≤ v) : water_needed valid lvl = 0 := by
  unfold water_needed
  induction valid with
  | nil => simp
  | cons v t ih =>
      simp only [List.map_cons, List.sum_cons]
      rw [max_eq_left (by linarith [h v (List.mem_cons_self v t)]),
        ih fun u hu => h u (List.mem_cons.mpr (Or.inr hu))]
      ring

lemma water_needed_ge_of_forall (valid : List ℚ) (lvl c : ℚ)
    (h : ∀ v ∈ valid, c ≤ lvl - v) :
    (valid.length : ℚ) * c ≤ water_needed valid lvl := by
  unfold water_needed
  induction valid with
  | nil => simp
  | cons v t ih =>
      simp only [List.map_cons, List.sum_cons, List.length_cons]
      have h1 : c ≤ max 0 (lvl - v) :=
        le_trans (h v (List.mem_cons_self v t)) (le_max_right 0 (lvl - v))
      have h2 := ih fun u hu => h u (List.mem_cons.mpr (Or.inr hu))
      push_cast
      nlinarith

lemma bisect_go_spec (valid : List ℚ) (tw : ℚ) :
    ∀ (k : ℕ) (lh : ℚ × ℚ),
      water_needed valid lh.1 < tw → tw ≤ water_needed valid lh.2 → lh.1 ≤ lh.2 →
      water_needed valid (bisect_go valid tw k lh).1 < tw ∧
      tw ≤ water_needed valid (bisect_go valid tw k lh).2 ∧
      (bisect_go valid tw k lh).1 ≤ (bisect_go valid tw k lh).2 ∧
      (bisect_go valid tw k lh).2 - (bisect_go valid tw k lh).1 = (lh.2 - lh.1) / 2 ^ k := by
  intro k
  induction k with
  | zero =>
      intro lh h1 h2 h3
      refine ⟨h1, h2, h3, by simp [bisect_go]⟩
  | succ k ih =>
      intro lh h1 h2 h3
      unfold bisect_go
      split
      · have hres := ih ((lh.1 + lh.2) / 2, lh.2) (by assumption) h2 (by dsimp; linarith)
        refine ⟨hres.1, hres.2.1, hres.2.2.1, ?_⟩
        rw [hres.2.2.2]
        dsimp
        field_simp
        ring
      · have hmid : tw ≤ water_needed valid ((lh.1 + lh.2) / 2) := le_of_not_lt (by assumption)
        have hres := ih (lh.1, (lh.1 + lh.2) / 2) h1 hmid (by dsimp; linarith)
        refine ⟨hres.1, hres.2.1, hres.2.2.1, ?_⟩
        rw [hres.2.2.2]
        dsimp
        field_simp
        ring

lemma bswl_water_needed_close (valid : List ℚ) (tw : ℚ) (k : ℕ)
    (hne : valid ≠ []) (htw : 0 ≤ tw) :
    |water_needed valid (binary_search_water_level valid tw k) - tw| ≤
      (valid.length : ℚ) *
        (list_max valid + tw / (valid.length : ℚ) - list_min valid) / 2 ^ k := by
  have hlen : valid.length ≠ 0 := fun h => hne (List.length_eq_zero.mp h)
  have hlenQ : (0 : ℚ) < (valid.length : ℚ) := by
    exact_mod_cast Nat.pos_of_ne_zero hlen
  have hminmax : list_min valid ≤ list_max valid := list_min_le_list_max hne
  rcases le_or_lt tw 0 with htw0 | htwpos
  · have htweq : tw = 0 := le_antisymm htw0 htw
    subst htweq
    unfold binary_search_water_level
    rw [if_pos (Or.inl (le_refl 0))]
    rw [water_needed_eq_zero_of_le valid (list_min valid) fun v hv => list_min_le hv]
    simp only [sub_zero, abs_zero, zero_div, add_zero]
    apply div_nonneg (mul_nonneg (le_of_lt hlenQ) (by linarith)) (by positivity)
  · unfold binary_search_water_level
    rw [if_neg (by push_neg; exact ⟨htwpos, hlen⟩)]
    have hlow : water_needed valid (list_min valid) < tw := by
      rw [water_needed_eq_zero_of_le valid (list_min valid) fun v hv => list_min_le hv]
      exact htwpos
    have hhigh : tw ≤ water_needed valid (list_max valid + tw / (valid.length : ℚ)) := by
      have := water_needed_ge_of_forall valid (list_max valid + tw / (valid.length : ℚ))
        (tw / (valid.length : ℚ))
        (fun v hv => by linarith [le_list_max hv])
      rw [mul_div_cancel₀ tw (ne_of_gt hlenQ)] at this
      exact this
    have hle : list_min valid ≤ list_max valid + tw / (valid.length : ℚ) := by
      have : 0 ≤ tw / (valid.length : ℚ) := by positivity
      linarith
    obtain ⟨hl, hh, hlh, hwidth⟩ := bisect_go_spec valid tw k
      (list_min valid, list_max valid + tw / (valid.length : ℚ)) hlow hhigh hle
    set l := (bisect_go valid tw k
      (list_min valid, list_max valid + tw / (valid.length : ℚ))).1 with hldef
    set h := (bisect_go valid tw k
      (list_min valid, list_max valid + tw / (valid.length : ℚ))).2 with hhdef
    have hmid_l : l ≤ (l + h) / 2 := by linarith
    have hmid_h : (l + h) / 2 ≤ h := by linarith
    have hlip := water_needed_lipschitz valid hlh
    have hm1 := water_needed_mono valid hmid_l
    have hm2 := water_needed_mono valid hmid_h
    have hb : water_needed valid h - water_needed valid l ≤
        (valid.length : ℚ) *
          (list_max valid + tw / (valid.length : ℚ) - list_min valid) / 2 ^ k := by
      have hb0 : water_needed valid h - water_needed valid l ≤
          (valid.length : ℚ) * (h - l) := hlip
      rw [hwidth] at hb0
      dsimp only at hb0
      rw [← mul_div_assoc] at hb0
      exact hb0
    rw [abs_le]
    constructor <;> linarith

end ErosionSim

namespace ErosionSim

lemma fin2_cast_zero : ((0 : Fin 2) : ℤ) = 0 := rfl

lemma fin2_cast_one : ((1 : Fin 2) : ℤ) = 1 := rfl

/-- The still-water height (volume times water height factor) of a processed
block after the Margolus sub-pass, summed over its in-bounds cells. -/
def margolus_still_after_height (mp : MargolusParams) (sw : StillWaterParams)
    (terr water : GridFn) (x0 y0 : ℤ) : ℚ :=
  (if margolus_mask mp x0 y0 0 0 then
    (margolus_cell_out mp sw terr water x0 y0 0 0).b * sw.water_height_factor else 0) +
  (if margolus_mask mp x0 y0 0 1 then
    (margolus_cell_out mp sw terr water x0 y0 0 1).b * sw.water_height_factor else 0) +
  (if margolus_mask mp x0 y0 1 0 then
    (margolus_cell_out mp sw terr water x0 y0 1 0).b * sw.water_height_factor else 0) +
  (if margolus_mask mp x0 y0 1 1 then
    (margolus_cell_out mp sw terr water x0 y0 1 1).b * sw.water_height_factor else 0)

/-- The numeric tolerance of the bisection solver for a block: the cell count
times the initial bracket width, halved once per configured bisection
iteration. -/
def margolus_tolerance (mp : MargolusParams) (sw : StillWaterParams)
    (terr water : GridFn) (x0 y0 : ℤ) : ℚ :=
  ((margolus_valid_heights mp terr x0 y0).length : ℚ) *
    (list_max (margolus_valid_heights mp terr x0 y0) +
      margolus_total_water_height mp sw terr water x0 y0 /
        ((margolus_valid_heights mp terr x0 y0).length : ℚ) -
      list_min (margolus_valid_heights mp terr x0 y0)) / 2 ^ mp.num_iterations

/-- C4. For every 2x2 block processed by a Margolus sub-pass (any block whose
top-left cell is on the grid), the total still-water height written over the
in-bounds cells of the block equals the pre-pass total within the numeric
tolerance of the bisection (cell count times initial bracket width, halved
per configured bisection iteration), and the flowing-water and both sediment
channels of those cells are written back unchanged. -/
theorem margolus_block_mass_conservation (mp : MargolusParams)
    (sw : StillWaterParams) (terr water : GridFn) (x0 y0 : ℤ)
    (hin : m_in_bounds mp.size_x mp.size_y x0 y0)
    (hwhf : (1 / 10 ^ 12 : ℚ) ≤ sw.water_height_factor)
    (hw00 : 0 ≤ (water x0 y0).b) (hw01 : 0 ≤ (water (x0 + 1) y0).b)
    (hw10 : 0 ≤ (water x0 (y0 + 1)).b) (hw11 : 0 ≤ (water (x0 + 1) (y0 + 1)).b) :
    |margolus_still_after_height mp sw terr water x0 y0 -
        margolus_total_water_height mp sw terr water x0 y0| ≤
      margolus_tolerance mp sw terr water x0 y0 ∧
    (∀ dy dx : Fin 2, margolus_mask mp x0 y0 dy dx →
      (margolus_cell_out mp sw terr water x0 y0 dy dx).r =
          (water (x0 + (dx : ℤ)) (y0 + (dy : ℤ))).r ∧
      (margolus_cell_out mp sw terr water x0 y0 dy dx).g =
          (water (x0 + (dx : ℤ)) (y0 + (dy : ℤ))).g ∧
      (margolus_cell_out mp sw terr water x0 y0 dy dx).a =
          (water (x0 + (dx : ℤ)) (y0 + (dy : ℤ))).a) := by
  have hwhfpos : (0 : ℚ) < sw.water_height_factor := lt_of_lt_of_le (by norm_num) hwhf
  have hmaskmax : max sw.water_height_factor (1 / 10 ^ 12 : ℚ) = sw.water_height_factor :=
    max_eq_left hwhf
  have hmask00 : margolus_mask mp x0 y0 0 0 := by
    unfold margolus_mask
    rw [fin2_cast_zero]
    simpa using hin
  have hvne : margolus_valid_heights mp terr x0 y0 ≠ [] := by
    unfold margolus_valid_heights
    rw [if_pos hmask00]
    simp
  have htw : 0 ≤ margolus_total_water_height mp sw terr water x0 y0 := by
    unfold margolus_total_water_height
    have t1 : (0:ℚ) ≤ if margolus_mask mp x0 y0 0 0 then
        (water x0 y0).b * sw.water_height_factor else 0 := by
      by_cases hm0 : margolus_mask mp x0 y0 0 0
      · rw [if_pos hm0]
        exact mul_nonneg hw00 hwhfpos.le
      · rw [if_neg hm0]
    have t2 : (0:ℚ) ≤ if margolus_mask mp x0 y0 0 1 then
        (water (x0 + 1) y0).b * sw.water_height_factor else 0 := by
      by_cases hm1 : margolus_mask mp x0 y0 0 1
      · rw [if_pos hm1]
        exact mul_nonneg hw01 hwhfpos.le
      · rw [if_neg hm1]
    have t3 : (0:ℚ) ≤ if margolus_mask mp x0 y0 1 0 then
        (water x0 (y0 + 1)).b * sw.water_height_factor else 0 := by
      by_cases hm2 : margolus_mask mp x0 y0 1 0
      · rw [if_pos hm2]
        exact mul_nonneg hw10 hwhfpos.le
      · rw [if_neg hm2]
    have t4 : (0:ℚ) ≤ if margolus_mask mp x0 y0 1 1 then
        (water (x0 + 1) (y0 + 1)).b * sw.water_height_factor else 0 := by
      by_cases hm3 : margolus_mask mp x0 y0 1 1
      · rw [if_pos hm3]
        exact mul_nonneg hw11 hwhfpos.le
      · rw [if_neg hm3]
    linarith
  constructor
  · have hafter : margolus_still_after_height mp sw terr water x0 y0 =
        water_needed (margolus_valid_heights mp terr x0 y0)
          (margolus_water_level mp sw terr water x0 y0) := by
      unfold margolus_still_after_height margolus_cell_out margolus_valid_heights water_needed
      rw [hmaskmax]
      by_cases m00 : margolus_mask mp x0 y0 0 0 <;>
        by_cases m01 : margolus_mask mp x0 y0 0 1 <;>
          by_cases m10 : margolus_mask mp x0 y0 1 0 <;>
            by_cases m11 : margolus_mask mp x0 y0 1 1 <;>
              simp only [m00, m01, m10, m11, if_true, if_false, fin2_cast_zero, fin2_cast_one,
                add_zero, List.append_nil, List.nil_append, List.cons_append, List.append_assoc,
                List.map_cons, List.map_nil, List.sum_cons, List.sum_nil,
                div_mul_cancel₀ _ (ne_of_gt hwhfpos)] <;>
              ring
    rw [hafter]
    have hkey := bswl_water_needed_close (margolus_valid_heights mp terr x0 y0)
      (margolus_total_water_height mp sw terr water x0 y0) mp.num_iterations hvne htw
    unfold margolus_water_level margolus_tolerance
    exact hkey
  · intro dy dx hm
    unfold margolus_cell_out
    rw [if_pos hm]
    exact ⟨rfl, rfl, rfl⟩

/-- C5. The bisection water-level solver: the water-needed function is
monotone in the candidate level (which makes bisection sound), and on the
concrete instance with terrain heights [0,1,2,3] and total water height 3.0
the returned level L satisfies that the water needed at L is within eps of
3.0, where eps = 15/2^k halves with every configured bisection iteration
(so any positive tolerance such as 1e-4 is met by a sufficient iteration
count). -/
theorem bisection_solver_concrete :
    (∀ (valid : List ℚ) (a b : ℚ), a ≤ b →
      water_needed valid a ≤ water_needed valid b) ∧
    ∀ k : ℕ,
      |water_needed [0, 1, 2, 3] (binary_search_water_level [0, 1, 2, 3] 3 k) - 3| ≤
        15 / 2 ^ k := by
  constructor
  · exact fun valid a b h => water_needed_mono valid h
  · intro k
    have h := bswl_water_needed_close [0, 1, 2, 3] 3 k (by simp) (by norm_num)
    have hmin : list_min [(0 : ℚ), 1, 2, 3] = 0 := by
      unfold list_min
      norm_num [List.foldl_cons, List.foldl_nil, min_def]
    have hmax : list_max [(0 : ℚ), 1, 2, 3] = 3 := by
      unfold list_max
      norm_num [List.foldl_cons, List.foldl_nil, max_def]
    rw [hmin, hmax] at h
    have hlen : (([(0 : ℚ), 1, 2, 3].length : ℚ)) = 4 := by norm_num
    rw [hlen] at h
    have heq : (4 : ℚ) * (3 + 3 / 4 - 0) / 2 ^ k = 15 / 2 ^ k := by ring
    rw [heq] at h
    exact h

end ErosionSim

namespace ErosionSim

/-- All four channels of a texel are nonnegative. -/
def nonneg4 (c : Cell4) : Prop := 0 ≤ c.r ∧ 0 ≤ c.g ∧ 0 ≤ c.b ∧ 0 ≤ c.a

lemma normalized_flow_weights_nonneg (pw : ℚ → ℚ → ℚ)
    (hpw : ∀ a e, 0 < a → 0 < pw a e) (p : ErosionParams) (terr water : GridFn)
    (x y : ℤ) (i : Fin 8) : 0 ≤ compute_normalized_flow_weights pw p terr water x y i := by
  unfold compute_normalized_flow_weights
  split
  · exact div_nonneg (raw_flow_weight_nonneg hpw p terr water x y i) (le_of_lt (by assumption))
  · exact le_refl 0

lemma total_flow_weight_nonneg (pw : ℚ → ℚ → ℚ)
    (hpw : ∀ a e, 0 < a → 0 < pw a e) (p : ErosionParams) (terr water : GridFn)
    (x y : ℤ) : 0 ≤ total_flow_weight_at pw p terr water x y :=
  sum8_nonneg fun i => normalized_flow_weights_nonneg pw hpw p terr water x y i

lemma get_water_data_nonneg (p : ErosionParams) (water : GridFn)
    (hw : ∀ u v, nonneg4 (water u v)) (x y : ℤ) :
    nonneg4 (get_water_data p water x y) := by
  unfold get_water_data
  split
  · exact ⟨le_refl 0, le_refl 0, le_refl 0, le_refl 0⟩
  · exact hw x y

lemma gather_flow_nonneg (pw : ℚ → ℚ → ℚ) (hpw : ∀ a e, 0 < a → 0 < pw a e)
    (p : ErosionParams) (terr water : GridFn)
    (hw : ∀ u v, nonneg4 (water u v)) (x y : ℤ) (i : Fin 8) :
    0 ≤ (gather_flow pw p terr water x y i).1 ∧
    0 ≤ (gather_flow pw p terr water x y i).2 := by
  unfold gather_flow
  split
  · exact ⟨le_refl 0, le_refl 0⟩
  · dsimp only
    split
    · exact ⟨le_refl 0, le_refl 0⟩
    · split
      · have hww := get_water_data_nonneg p water hw (x + nOffX i) (y + nOffY i)
        have hf := normalized_flow_weights_nonneg pw hpw p terr water
          (x + nOffX i) (y + nOffY i) (oppositeDir i)
        exact ⟨mul_nonneg hww.1 hf, mul_nonneg hww.2.1 hf⟩
      · exact ⟨le_refl 0, le_refl 0⟩

lemma accumulate_nonneg (pw : ℚ → ℚ → ℚ) (hpw : ∀ a e, 0 < a → 0 < pw a e)
    (p : ErosionParams) (terr water : GridFn)
    (hw : ∀ u v, nonneg4 (water u v)) (x y : ℤ) :
    0 ≤ (accumulate_water_and_sediment pw p terr water x y).1 ∧
    0 ≤ (accumulate_water_and_sediment pw p terr water x y).2 := by
  unfold accumulate_water_and_sediment
  dsimp only
  exact ⟨sum8_nonneg fun i => (gather_flow_nonneg pw hpw p terr water hw x y i).1,
    sum8_nonneg fun i => (gather_flow_nonneg pw hpw p terr water hw x y i).2⟩

set_option maxHeartbeats 1000000 in
lemma remobilized_bounds (pw : ℚ → ℚ → ℚ) (p : ErosionParams) (terr water : GridFn)
    (hw : ∀ u v, nonneg4 (water u v))
    (hrelax0 : 0 ≤ p.still_water_relaxation) (hrelax1 : p.still_water_relaxation ≤ 1)
    (x y : ℤ) :
    0 ≤ (remobilized pw p terr water x y).1 ∧
    (remobilized pw p terr water x y).1 ≤ (water x y).b ∧
    0 ≤ (remobilized pw p terr water x y).2 ∧
    (remobilized pw p terr water x y).2 ≤ (water x y).a := by
  obtain ⟨hwr, hwg, hwb, hwa⟩ := hw x y
  unfold remobilized
  split
  · rename_i hcond
    obtain ⟨hb, _⟩ := hcond
    dsimp only
    have hminle : min ((water x y).b * p.still_water_relaxation) MAX_WATER_PER_CELL ≤
        (water x y).b * p.still_water_relaxation := min_le_left _ _
    have hmin0 : 0 ≤ min ((water x y).b * p.still_water_relaxation) MAX_WATER_PER_CELL := by
      apply le_min (mul_nonneg hwb hrelax0)
      unfold MAX_WATER_PER_CELL
      norm_num
    have hminb : min ((water x y).b * p.still_water_relaxation) MAX_WATER_PER_CELL ≤
        (water x y).b := by
      calc min ((water x y).b * p.still_water_relaxation) MAX_WATER_PER_CELL ≤
          (water x y).b * p.still_water_relaxation := hminle
        _ ≤ (water x y).b * 1 := mul_le_mul_of_nonneg_left hrelax1 hwb
        _ = (water x y).b := mul_one _
    have hfrac1 : min ((water x y).b * p.still_water_relaxation) MAX_WATER_PER_CELL /
        (water x y).b ≤ 1 := by
      rw [div_le_one hb]
      exact hminb
    have hfrac0 : 0 ≤ min ((water x y).b * p.still_water_relaxation) MAX_WATER_PER_CELL /
        (water x y).b := div_nonneg hmin0 hwb
    refine ⟨hmin0, hminb, mul_nonneg hwa hfrac0, ?_⟩
    calc (water x y).a *
        (min ((water x y).b * p.still_water_relaxation) MAX_WATER_PER_CELL / (water x y).b) ≤
        (water x y).a * 1 := mul_le_mul_of_nonneg_left hfrac1 hwa
      _ = (water x y).a := mul_one _
  · exact ⟨le_refl 0, hwb, le_refl 0, hwa⟩

lemma smoothstepQ_mem (e0 e1 x : ℚ) :
    0 ≤ smoothstepQ e0 e1 x ∧ smoothstepQ e0 e1 x ≤ 1 := by
  unfold smoothstepQ clampQ
  set t := min (max ((x - e0) / (e1 - e0)) 0) 1 with ht
  have h0 : 0 ≤ t := le_min (le_max_right _ 0) (by norm_num)
  have h1 : t ≤ 1 := min_le_right _ 1
  constructor
  · nlinarith
  · nlinarith [sq_nonneg (1 - t)]

lemma gathered_water_nonneg (pw : ℚ → ℚ → ℚ) (hpw : ∀ a e, 0 < a → 0 < pw a e)
    (p : ErosionParams) (terr water : GridFn)
    (hw : ∀ u v, nonneg4 (water u v))
    (hrelax0 : 0 ≤ p.still_water_relaxation) (hrelax1 : p.still_water_relaxation ≤ 1)
    (hevap1 : p.evap_rate ≤ 1) (x y : ℤ) :
    0 ≤ gathered_water pw p terr water x y := by
  unfold gathered_water
  have h1 := (accumulate_nonneg pw hpw p terr water hw x y).1
  have h2 := (remobilized_bounds pw p terr water hw hrelax0 hrelax1 x y).1
  have h3 : (0:ℚ) ≤ 1 - p.evap_rate := by linarith
  nlinarith

lemma gathered_sediment_nonneg (pw : ℚ → ℚ → ℚ) (hpw : ∀ a e, 0 < a → 0 < pw a e)
    (p : ErosionParams) (terr water : GridFn)
    (hw : ∀ u v, nonneg4 (water u v))
    (hrelax0 : 0 ≤ p.still_water_relaxation) (hrelax1 : p.still_water_relaxation ≤ 1)
    (x y : ℤ) :
    0 ≤ gathered_sediment pw p terr water x y := by
  unfold gathered_sediment
  have h1 := (accumulate_nonneg pw hpw p terr water hw x y).2
  have h2 := (remobilized_bounds pw p terr water hw hrelax0 hrelax1 x y).2.2.1
  linarith

lemma avg_slope_nonneg (pw : ℚ → ℚ → ℚ) (p : ErosionParams) (terr water : GridFn)
    (x y : ℤ) : 0 ≤ avg_slope_at pw p terr water x y := by
  unfold avg_slope_at
  apply sum8_nonneg
  intro i
  split
  · exact mul_nonneg (le_max_right _ 0) (le_of_lt (by assumption))
  · exact le_refl 0

lemma sediment_after_exchange_nonneg (pw : ℚ → ℚ → ℚ)
    (hpw : ∀ a e, 0 < a → 0 < pw a e) (p : ErosionParams) (terr water : GridFn)
    (hw : ∀ u v, nonneg4 (water u v))
    (hrelax0 : 0 ≤ p.still_water_relaxation) (hrelax1 : p.still_water_relaxation ≤ 1)
    (hevap1 : p.evap_rate ≤ 1)
    (hdep0 : 0 ≤ p.deposition_rate) (hdep1 : p.deposition_rate ≤ 1) (x y : ℤ) :
    0 ≤ sediment_after_exchange pw p terr water x y := by
  have hsacc := gathered_sediment_nonneg pw hpw p terr water hw hrelax0 hrelax1 x y
  unfold sediment_after_exchange
  split
  · rename_i hcond
    unfold bed_exchange
    have hwacc : 0 ≤ gathered_water pw p terr water x y := hcond.2.le
    have hslope := avg_slope_nonneg pw p terr water x y
    have hgate := smoothstepQ_mem p.shear_shallow p.shear_deep
      (((water x y).b + p.flow_depth_weight * gathered_water pw p terr water x y) *
        p.water_height_factor * avg_slope_at pw p terr water x y)
    have hcap : 0 ≤ gathered_water pw p terr water x y * avg_slope_at pw p terr water x y *
        smoothstepQ p.shear_shallow p.shear_deep
          (((water x y).b + p.flow_depth_weight * gathered_water pw p terr water x y) *
            p.water_height_factor * avg_slope_at pw p terr water x y) :=
      mul_nonneg (mul_nonneg hwacc hslope) hgate.1
    nlinarith
  · exact hsacc

lemma still_water_pre_cap_nonneg (pw : ℚ → ℚ → ℚ) (p : ErosionParams)
    (terr water : GridFn) (hw : ∀ u v, nonneg4 (water u v))
    (hrelax0 : 0 ≤ p.still_water_relaxation) (hrelax1 : p.still_water_relaxation ≤ 1)
    (hevap1 : p.evap_rate ≤ 1) (x y : ℤ) :
    0 ≤ still_water_pre_cap pw p terr water x y := by
  obtain ⟨hwr, hwg, hwb, hwa⟩ := hw x y
  have hrem := remobilized_bounds pw p terr water hw hrelax0 hrelax1 x y
  unfold still_water_pre_cap
  split
  · have : (0:ℚ) ≤ (water x y).r * (1 - p.evap_rate) :=
      mul_nonneg hwr (by linarith)
    linarith [hrem.2.1]
  · linarith [hrem.2.1]

lemma still_sediment_pre_cap_nonneg (pw : ℚ → ℚ → ℚ) (p : ErosionParams)
    (terr water : GridFn) (hw : ∀ u v, nonneg4 (water u v))
    (hrelax0 : 0 ≤ p.still_water_relaxation) (hrelax1 : p.still_water_relaxation ≤ 1)
    (x y : ℤ) :
    0 ≤ still_sediment_pre_cap pw p terr water x y := by
  have hrem := remobilized_bounds pw p terr water hw hrelax0 hrelax1 x y
  unfold still_sediment_pre_cap
  split
  · exact add_nonneg (le_max_left 0 _) (le_max_left 0 _)
  · linarith [hrem.2.2.2]

end ErosionSim

namespace ErosionSim

lemma nInvDist_pos (i : Fin 8) : 0 < nInvDist i := by
  fin_cases i <;>
    first
      | (show (0:ℚ) < INV_SQRT2; norm_num [INV_SQRT2])
      | (show (0:ℚ) < 1; norm_num)

lemma spawn_amount_nonneg (p : ErosionParams) (x y : ℤ) : 0 ≤ spawn_amount p x y := by
  unfold spawn_amount MAX_WATER_PER_CELL
  split <;> norm_num

lemma swr_raw_weight_nonneg (sw : StillWaterParams) (terr water : GridFn)
    (x y : ℤ) (i : Fin 8) : 0 ≤ swr_raw_weight sw terr water x y i := by
  unfold swr_raw_weight
  split
  · exact le_refl 0
  · split
    · exact le_refl 0
    · rename_i hniq hgt
      have : (0:ℚ) < swr_effective_height sw terr water x y -
          swr_effective_height sw terr water (x + nOffX i) (y + nOffY i) := by
        have := not_le.mp hgt
        linarith
      exact mul_nonneg this.le (nInvDist_pos i).le

lemma swr_weights_nonneg (sw : StillWaterParams) (terr water : GridFn)
    (x y : ℤ) (i : Fin 8) : 0 ≤ swr_weights sw terr water x y i := by
  unfold swr_weights
  split
  · exact div_nonneg (swr_raw_weight_nonneg sw terr water x y i) (le_of_lt (by assumption))
  · exact le_refl 0

lemma swr_gather_nonneg (sw : StillWaterParams) (terr water : GridFn)
    (hw : ∀ u v, nonneg4 (water u v)) (hrelax : 0 ≤ sw.still_water_relaxation)
    (x y : ℤ) (i : Fin 8) :
    0 ≤ (swr_gather sw terr water x y i).1 ∧ 0 ≤ (swr_gather sw terr water x y i).2 := by
  unfold swr_gather
  by_cases h1 : oob sw.size_x sw.size_y (x + nOffX i) (y + nOffY i)
  · rw [if_pos h1]
    exact ⟨le_refl 0, le_refl 0⟩
  rw [if_neg h1]
  by_cases h2 : (water (x + nOffX i) (y + nOffY i)).b ≤ 0 ∨
      swr_effective_height sw terr water (x + nOffX i) (y + nOffY i) ≤
        swr_effective_height sw terr water x y
  · rw [if_pos h2]
    exact ⟨le_refl 0, le_refl 0⟩
  rw [if_neg h2]
  by_cases h3 : 0 < swr_weights sw terr water (x + nOffX i) (y + nOffY i) (oppositeDir i)
  · rw [if_pos h3]
    push_neg at h2
    have hb : 0 < (water (x + nOffX i) (y + nOffY i)).b := lt_of_not_le (not_le.mpr h2.1)
    have hmin0 : 0 ≤ min ((water (x + nOffX i) (y + nOffY i)).b *
        swr_weights sw terr water (x + nOffX i) (y + nOffY i) (oppositeDir i))
        (sw.still_water_relaxation * (water (x + nOffX i) (y + nOffY i)).b *
          swr_weights sw terr water (x + nOffX i) (y + nOffY i) (oppositeDir i)) := by
      apply le_min (mul_nonneg hb.le h3.le)
      exact mul_nonneg (mul_nonneg hrelax hb.le) h3.le
    refine ⟨hmin0, ?_⟩
    dsimp only
    rw [if_pos hb]
    exact mul_nonneg hmin0 (div_nonneg (hw (x + nOffX i) (y + nOffY i)).2.2.2 hb.le)
  · rw [if_neg h3]
    exact ⟨le_refl 0, le_refl 0⟩

lemma swr_outflow_bounds (sw : StillWaterParams) (terr water : GridFn)
    (hw : ∀ u v, nonneg4 (water u v)) (hrelax : 0 ≤ sw.still_water_relaxation)
    (x y : ℤ) :
    0 ≤ (swr_outflow sw terr water x y).1 ∧
    (swr_outflow sw terr water x y).1 ≤ (water x y).b ∧
    0 ≤ (swr_outflow sw terr water x y).2 ∧
    (swr_outflow sw terr water x y).2 ≤ (water x y).a := by
  obtain ⟨hwr, hwg, hwb, hwa⟩ := hw x y
  unfold swr_outflow
  split
  · rename_i hcond
    obtain ⟨hT, hb⟩ := hcond
    dsimp only
    have hmin0 : 0 ≤ min ((water x y).b)
        (sw.still_water_relaxation * (water x y).b * sum8 (swr_weights sw terr water x y)) := by
      apply le_min hb.le
      exact mul_nonneg (mul_nonneg hrelax hb.le) hT.le
    have hminb : min ((water x y).b)
        (sw.still_water_relaxation * (water x y).b * sum8 (swr_weights sw terr water x y)) ≤
        (water x y).b := min_le_left _ _
    have hconc0 : 0 ≤ (water x y).a / (water x y).b := div_nonneg hwa hb.le
    refine ⟨hmin0, hminb, mul_nonneg hmin0 hconc0, ?_⟩
    calc min ((water x y).b)
          (sw.still_water_relaxation * (water x y).b * sum8 (swr_weights sw terr water x y)) *
          ((water x y).a / (water x y).b) ≤
        (water x y).b * ((water x y).a / (water x y).b) :=
          mul_le_mul_of_nonneg_right hminb hconc0
      _ = (water x y).a := by
          field_simp
  · exact ⟨le_refl 0, hwb, le_refl 0, hwa⟩

/-- C3 (amended). For configurations whose still-water relaxation,
evaporation rate and deposition rate lie in [0,1] (and a nonnegative
redistribution relaxation factor), starting from grids with nonnegative
water and sediment channels, none of the four water channels written by any
water-writing kernel pass of the pipeline (hydraulic erosion, still-water
redistribution, Margolus equilibration) is negative at any cell.  The claim
as frozen quantifies over every value of the relaxation factor; it fails for
relaxation factors above 1 (see the counterexample), because the hydraulic
remobilization step removes min(stillWater * relaxation, MAX_WATER_PER_CELL)
from the still pool, which can exceed the stock. -/
theorem water_channels_nonneg (pw : ℚ → ℚ → ℚ) (hpw : ∀ a e, 0 < a → 0 < pw a e)
    (p : ErosionParams) (sw : StillWaterParams) (mp : MargolusParams)
    (terr water : GridFn)
    (hrelax0 : 0 ≤ p.still_water_relaxation) (hrelax1 : p.still_water_relaxation ≤ 1)
    (hevap0 : 0 ≤ p.evap_rate) (hevap1 : p.evap_rate ≤ 1)
    (hdep0 : 0 ≤ p.deposition_rate) (hdep1 : p.deposition_rate ≤ 1)
    (hswrelax : 0 ≤ sw.still_water_relaxation)
    (hw : ∀ u v, nonneg4 (water u v)) :
    (∀ x y, nonneg4 (erosion_kernel_main pw p terr water x y).2) ∧
    (∀ x y, nonneg4 (swr_kernel_main sw terr water x y)) ∧
    (∀ x0 y0 (dy dx : Fin 2), nonneg4 (margolus_cell_out mp sw terr water x0 y0 dy dx)) := by
  refine ⟨?_, ?_, ?_⟩
  · intro x y
    have hwacc := gathered_water_nonneg pw hpw p terr water hw hrelax0 hrelax1 hevap1 x y
    have hsacc := sediment_after_exchange_nonneg pw hpw p terr water hw hrelax0 hrelax1
      hevap1 hdep0 hdep1 x y
    have hswp := still_water_pre_cap_nonneg pw p terr water hw hrelax0 hrelax1 hevap1 x y
    have hssp := still_sediment_pre_cap_nonneg pw p terr water hw hrelax0 hrelax1 x y
    have hspawn := spawn_amount_nonneg p x y
    unfold erosion_kernel_main
    dsimp only
    split
    · rename_i hcap
      have hwaccpos : (0:ℚ) < gathered_water pw p terr water x y := by
        unfold MAX_WATER_PER_CELL at hcap
        linarith
      have hfrac1 : (gathered_water pw p terr water x y - MAX_WATER_PER_CELL) /
          gathered_water pw p terr water x y ≤ 1 := by
        rw [div_le_one hwaccpos]
        unfold MAX_WATER_PER_CELL
        linarith
      have hfrac0 : 0 ≤ (gathered_water pw p terr water x y - MAX_WATER_PER_CELL) /
          gathered_water pw p terr water x y := by
        apply div_nonneg
        · unfold MAX_WATER_PER_CELL at hcap ⊢
          linarith
        · exact hwaccpos.le
      refine ⟨?_, ?_, ?_, ?_⟩
      · have : (0:ℚ) ≤ MAX_WATER_PER_CELL := by unfold MAX_WATER_PER_CELL; norm_num
        dsimp only
        linarith
      · dsimp only
        nlinarith
      · dsimp only
        unfold MAX_WATER_PER_CELL at hcap ⊢
        linarith
      · dsimp only
        have : 0 ≤ sediment_after_exchange pw p terr water x y *
            ((gathered_water pw p terr water x y - MAX_WATER_PER_CELL) /
              gathered_water pw p terr water x y) := mul_nonneg hsacc hfrac0
        linarith
    · exact ⟨by dsimp only; linarith, hsacc, hswp, hssp⟩
  · intro x y
    obtain ⟨hwr, hwg, hwb, hwa⟩ := hw x y
    have hin1 := sum8_nonneg fun i => (swr_gather_nonneg sw terr water hw hswrelax x y i).1
    have hin2 := sum8_nonneg fun i => (swr_gather_nonneg sw terr water hw hswrelax x y i).2
    have hout := swr_outflow_bounds sw terr water hw hswrelax x y
    unfold swr_kernel_main swr_inflow
    refine ⟨hwr, hwg, ?_, ?_⟩
    · dsimp only
      linarith [hout.2.1]
    · dsimp only
      linarith [hout.2.2.2]
  · intro x0 y0 dy dx
    unfold margolus_cell_out
    split
    · refine ⟨(hw _ _).1, (hw _ _).2.1, ?_, (hw _ _).2.2.2⟩
      apply div_nonneg (le_max_left 0 _)
      have : (0:ℚ) < 1 / 10 ^ 12 := by norm_num
      linarith [le_max_right sw.water_height_factor (1 / 10 ^ 12 : ℚ)]
    · exact hw _ _

end ErosionSim

namespace ErosionSim

/-- The amount cell (x, y) gives to its neighbor in direction i in the
redistribution pass: what that neighbor gathers back from (x, y) through the
reciprocal direction (zero when the neighbor is off the grid, where no
invocation runs). -/
def swr_give (sw : StillWaterParams) (terr water : GridFn) (x y : ℤ) (i : Fin 8) : ℚ × ℚ :=
  if oob sw.size_x sw.size_y (x + nOffX i) (y + nOffY i) then (0, 0)
  else swr_gather sw terr water (x + nOffX i) (y + nOffY i) (oppositeDir i)

lemma oppositeDir_involutive (i : Fin 8) : oppositeDir (oppositeDir i) = i := by
  unfold oppositeDir
  fin_cases i <;> rfl

lemma nOffX_oppositeDir (i : Fin 8) : nOffX (oppositeDir i) = -nOffX i := by
  unfold oppositeDir
  fin_cases i <;> rfl

lemma nOffY_oppositeDir (i : Fin 8) : nOffY (oppositeDir i) = -nOffY i := by
  unfold oppositeDir
  fin_cases i <;> rfl

lemma sum8_mul_left (c : ℚ) (w : Fin 8 → ℚ) :
    sum8 (fun i => c * w i) = c * sum8 w := by
  unfold sum8; ring

lemma swr_raw_weight_pos_conds {sw : StillWaterParams} {terr water : GridFn}
    {x y : ℤ} {i : Fin 8} (h : 0 < swr_raw_weight sw terr water x y i) :
    ¬ oob sw.size_x sw.size_y (x + nOffX i) (y + nOffY i) ∧
    1 / 100000 < swr_effective_height sw terr water x y -
      swr_effective_height sw terr water (x + nOffX i) (y + nOffY i) := by
  unfold swr_raw_weight at h
  by_cases h1 : oob sw.size_x sw.size_y (x + nOffX i) (y + nOffY i)
  · rw [if_pos h1] at h
    exact absurd h (lt_irrefl 0)
  rw [if_neg h1] at h
  by_cases h2 : swr_effective_height sw terr water x y -
      swr_effective_height sw terr water (x + nOffX i) (y + nOffY i) ≤ 1 / 100000
  · rw [if_pos h2] at h
    exact absurd h (lt_irrefl 0)
  · exact ⟨h1, not_le.mp h2⟩

lemma swr_weights_zero_of_total_nonpos {sw : StillWaterParams} {terr water : GridFn}
    {x y : ℤ} (h : ¬ 0 < sum8 (swr_raw_weight sw terr water x y)) (i : Fin 8) :
    swr_weights sw terr water x y i = 0 := by
  unfold swr_weights
  rw [if_neg h]

lemma swr_weights_sum_eq_one {sw : StillWaterParams} {terr water : GridFn}
    {x y : ℤ} (h : 0 < sum8 (swr_raw_weight sw terr water x y)) :
    sum8 (swr_weights sw terr water x y) = 1 := by
  have : swr_weights sw terr water x y = fun i =>
      swr_raw_weight sw terr water x y i / sum8 (swr_raw_weight sw terr water x y) := by
    funext i
    unfold swr_weights
    rw [if_pos h]
  rw [this, sum8_div]
  exact div_self (ne_of_gt h)

lemma swr_weights_pos_imp {sw : StillWaterParams} {terr water : GridFn}
    {x y : ℤ} {i : Fin 8} (h : 0 < swr_weights sw terr water x y i) :
    0 < swr_raw_weight sw terr water x y i := by
  unfold swr_weights at h
  by_cases htot : 0 < sum8 (swr_raw_weight sw terr water x y)
  · rw [if_pos htot] at h
    by_contra hraw
    rw [not_lt] at hraw
    have : swr_raw_weight sw terr water x y i / sum8 (swr_raw_weight sw terr water x y) ≤ 0 :=
      div_nonpos_of_nonpos_of_nonneg hraw htot.le
    linarith
  · rw [if_neg htot] at h
    exact absurd h (lt_irrefl 0)

lemma min_mul_right_nonneg {a b k : ℚ} (hk : 0 ≤ k) :
    min (a * k) (b * k) = min a b * k := by
  rcases le_total a b with h | h
  · rw [min_eq_left h, min_eq_left (mul_le_mul_of_nonneg_right h hk)]
  · rw [min_eq_right h, min_eq_right (mul_le_mul_of_nonneg_right h hk)]

lemma min_scale (r b w : ℚ) (hk : 0 ≤ b * w) :
    min (b * w) (r * b * w) = min 1 r * (b * w) := by
  rcases le_total 1 r with h | h
  · rw [min_eq_left (by nlinarith), min_eq_left h, one_mul]
  · rw [min_eq_right (by nlinarith), min_eq_right h]
    ring

lemma min_scale1 (r b : ℚ) (hb : 0 ≤ b) : min b (r * b) = min 1 r * b := by
  rcases le_total 1 r with h | h
  · rw [min_eq_left (by nlinarith), min_eq_left h, one_mul]
  · rw [min_eq_right (by nlinarith), min_eq_right h]

/-- Per-cell flux identity of the redistribution kernel: what an in-bounds
cell removes as outflow is exactly what its neighbors gather from it,
channel by channel, in exact arithmetic. -/
lemma swr_outflow_eq_sum_give (sw : StillWaterParams) (terr water : GridFn)
    (x y : ℤ) (hs : ¬ oob sw.size_x sw.size_y x y) :
    (swr_outflow sw terr water x y).1 = sum8 (fun i => (swr_give sw terr water x y i).1) ∧
    (swr_outflow sw terr water x y).2 = sum8 (fun i => (swr_give sw terr water x y i).2) := by
  have hgive : ∀ i : Fin 8,
      (0 < (water x y).b ∧ 0 < swr_weights sw terr water x y i ∧
        swr_give sw terr water x y i =
        (min ((water x y).b * swr_weights sw terr water x y i)
            (sw.still_water_relaxation * (water x y).b * swr_weights sw terr water x y i),
         min ((water x y).b * swr_weights sw terr water x y i)
            (sw.still_water_relaxation * (water x y).b * swr_weights sw terr water x y i) *
           ((water x y).a / (water x y).b))) ∨
      (swr_give sw terr water x y i = (0, 0) ∧ swr_weights sw terr water x y i = 0) ∨
      (swr_give sw terr water x y i = (0, 0) ∧ (water x y).b ≤ 0) := by
    intro i
    by_cases hwi : 0 < swr_weights sw terr water x y i
    · by_cases hb : 0 < (water x y).b
      · left
        refine ⟨hb, hwi, ?_⟩
        have hraw := swr_weights_pos_imp hwi
        obtain ⟨hnb, hdiff⟩ := swr_raw_weight_pos_conds hraw
        unfold swr_give
        rw [if_neg hnb]
        unfold swr_gather
        rw [nOffX_oppositeDir, nOffY_oppositeDir, oppositeDir_involutive]
        have hxx : x + nOffX i + -nOffX i = x := by ring
        have hyy : y + nOffY i + -nOffY i = y := by ring
        rw [hxx, hyy]
        rw [if_neg hs]
        have hnskip : ¬ ((water x y).b ≤ 0 ∨
            swr_effective_height sw terr water x y ≤
              swr_effective_height sw terr water (x + nOffX i) (y + nOffY i)) := by
          push_neg
          exact ⟨hb, by linarith⟩
        rw [if_neg hnskip, if_pos hwi, if_pos hb]
      · right; right
        refine ⟨?_, not_lt.mp hb⟩
        unfold swr_give
        by_cases hnb : oob sw.size_x sw.size_y (x + nOffX i) (y + nOffY i)
        · rw [if_pos hnb]
        rw [if_neg hnb]
        unfold swr_gather
        rw [nOffX_oppositeDir, nOffY_oppositeDir]
        have hxx : x + nOffX i + -nOffX i = x := by ring
        have hyy : y + nOffY i + -nOffY i = y := by ring
        rw [hxx, hyy]
        rw [if_neg hs]
        rw [if_pos (Or.inl (not_lt.mp hb))]
    · right; left
      have hwz : swr_weights sw terr water x y i = 0 := by
        linarith [swr_weights_nonneg sw terr water x y i, not_lt.mp hwi]
      refine ⟨?_, hwz⟩
      unfold swr_give
      by_cases hnb : oob sw.size_x sw.size_y (x + nOffX i) (y + nOffY i)
      · rw [if_pos hnb]
      rw [if_neg hnb]
      unfold swr_gather
      rw [nOffX_oppositeDir, nOffY_oppositeDir, oppositeDir_involutive]
      have hxx : x + nOffX i + -nOffX i = x := by ring
      have hyy : y + nOffY i + -nOffY i = y := by ring
      rw [hxx, hyy]
      rw [if_neg hs]
      by_cases hskip : (water x y).b ≤ 0 ∨
          swr_effective_height sw terr water x y ≤
            swr_effective_height sw terr water (x + nOffX i) (y + nOffY i)
      · rw [if_pos hskip]
      · rw [if_neg hskip, if_neg (by rw [hwz]; exact lt_irrefl 0)]
  by_cases hb : 0 < (water x y).b
  · by_cases htot : 0 < sum8 (swr_raw_weight sw terr water x y)
    · have hT : sum8 (swr_weights sw terr water x y) = 1 := swr_weights_sum_eq_one htot
      have hcond : 0 < sum8 (swr_weights sw terr water x y) ∧ 0 < (water x y).b := by
        rw [hT]; exact ⟨one_pos, hb⟩
      have hterm : ∀ i : Fin 8, (swr_give sw terr water x y i).1 =
          min 1 sw.still_water_relaxation *
            ((water x y).b * swr_weights sw terr water x y i) := by
        intro i
        have hk : 0 ≤ (water x y).b * swr_weights sw terr water x y i :=
          mul_nonneg hb.le (swr_weights_nonneg sw terr water x y i)
        rcases hgive i with ⟨_, _, h⟩ | ⟨h, hwz⟩ | ⟨h, hbz⟩
        · rw [h]
          exact min_scale sw.still_water_relaxation (water x y).b
            (swr_weights sw terr water x y i) hk
        · rw [h, hwz]
          simp
        · exact absurd hb (not_lt.mpr hbz)
      have hterm2 : ∀ i : Fin 8, (swr_give sw terr water x y i).2 =
          min 1 sw.still_water_relaxation *
            ((water x y).b * swr_weights sw terr water x y i) *
            ((water x y).a / (water x y).b) := by
        intro i
        have hk : 0 ≤ (water x y).b * swr_weights sw terr water x y i :=
          mul_nonneg hb.le (swr_weights_nonneg sw terr water x y i)
        rcases hgive i with ⟨_, _, h⟩ | ⟨h, hwz⟩ | ⟨h, hbz⟩
        · rw [h]
          show min ((water x y).b * swr_weights sw terr water x y i)
              (sw.still_water_relaxation * (water x y).b * swr_weights sw terr water x y i) *
              ((water x y).a / (water x y).b) = _
          rw [min_scale sw.still_water_relaxation (water x y).b
            (swr_weights sw terr water x y i) hk]
        · rw [h, hwz]
          simp
        · exact absurd hb (not_lt.mpr hbz)
      constructor
      · unfold swr_outflow
        rw [if_pos hcond]
        dsimp only
        have hsum : sum8 (fun i => (swr_give sw terr water x y i).1) =
            min 1 sw.still_water_relaxation * (water x y).b := by
          simp only [sum8]
          rw [hterm 0, hterm 1, hterm 2, hterm 3, hterm 4, hterm 5, hterm 6, hterm 7]
          have hTu : swr_weights sw terr water x y 0 + swr_weights sw terr water x y 1 +
              swr_weights sw terr water x y 2 + swr_weights sw terr water x y 3 +
              swr_weights sw terr water x y 4 + swr_weights sw terr water x y 5 +
              swr_weights sw terr water x y 6 + swr_weights sw terr water x y 7 = 1 := hT
          linear_combination (min 1 sw.still_water_relaxation * (water x y).b) * hTu
        rw [hsum, hT, mul_one]
        exact min_scale1 sw.still_water_relaxation (water x y).b hb.le
      · unfold swr_outflow
        rw [if_pos hcond]
        dsimp only
        have hsum : sum8 (fun i => (swr_give sw terr water x y i).2) =
            min 1 sw.still_water_relaxation * (water x y).b *
              ((water x y).a / (water x y).b) := by
          simp only [sum8]
          rw [hterm2 0, hterm2 1, hterm2 2, hterm2 3, hterm2 4, hterm2 5, hterm2 6, hterm2 7]
          have hTu : swr_weights sw terr water x y 0 + swr_weights sw terr water x y 1 +
              swr_weights sw terr water x y 2 + swr_weights sw terr water x y 3 +
              swr_weights sw terr water x y 4 + swr_weights sw terr water x y 5 +
              swr_weights sw terr water x y 6 + swr_weights sw terr water x y 7 = 1 := hT
          linear_combination (min 1 sw.still_water_relaxation * (water x y).b *
            ((water x y).a / (water x y).b)) * hTu
        rw [hsum, hT, mul_one, min_scale1 sw.still_water_relaxation (water x y).b hb.le]
    · have hwz : ∀ i, swr_weights sw terr water x y i = 0 :=
        swr_weights_zero_of_total_nonpos htot
      have hout : swr_outflow sw terr water x y = (0, 0) := by
        unfold swr_outflow
        have hT : sum8 (swr_weights sw terr water x y) = 0 := by
          simp [sum8, hwz]
        rw [if_neg (by rw [hT]; intro hc; exact lt_irrefl 0 hc.1)]
      have hgz : ∀ i : Fin 8, swr_give sw terr water x y i = (0, 0) := by
        intro i
        rcases hgive i with ⟨_, hwi, _⟩ | ⟨h, _⟩ | ⟨h, _⟩
        · exact absurd (hwz i) (ne_of_gt hwi)
        · exact h
        · exact h
      rw [hout]
      constructor
      · simp [sum8, hgz]
      · simp [sum8, hgz]
  · have hout : swr_outflow sw terr water x y = (0, 0) := by
      unfold swr_outflow
      rw [if_neg (by intro hc; exact hb hc.2)]
    have hgz : ∀ i : Fin 8, swr_give sw terr water x y i = (0, 0) := by
      intro i
      rcases hgive i with ⟨hbpos, _, _⟩ | ⟨h, _⟩ | ⟨h, _⟩
      · exact absurd hbpos hb
      · exact h
      · exact h
    rw [hout]
    constructor
    · simp [sum8, hgz]
    · simp [sum8, hgz]

end ErosionSim

namespace ErosionSim

/-- The set of grid cell coordinates of a W x H grid. -/
def gridCells (W H : ℕ) : Finset (ℤ × ℤ) :=
  Finset.Icc (0 : ℤ) ((W : ℤ) - 1) ×ˢ Finset.Icc (0 : ℤ) ((H : ℤ) - 1)

lemma mem_gridCells {W H : ℕ} {c : ℤ × ℤ} :
    c ∈ gridCells W H ↔ ¬ oob W H c.1 c.2 := by
  unfold gridCells oob
  rw [Finset.mem_product, Finset.mem_Icc, Finset.mem_Icc]
  constructor
  · rintro ⟨⟨h1, h2⟩, h3, h4⟩
    push_neg
    exact ⟨h1, by omega, h3, by omega⟩
  · intro h
    push_neg at h
    exact ⟨⟨h.1, by omega⟩, h.2.2.1, by omega⟩

lemma sum_shift (B : Finset (ℤ × ℤ)) (d : ℤ × ℤ) (f : ℤ × ℤ → ℚ)
    (hf : ∀ c, c + d ∉ B → f c = 0) :
    ∑ c ∈ B, f c = ∑ s ∈ B, if s - d ∈ B then f (s - d) else 0 := by
  have h1 : ∑ c ∈ B, f c = ∑ c ∈ B, if c + d ∈ B then f c else 0 := by
    apply Finset.sum_congr rfl
    intro c _
    by_cases hcd : c + d ∈ B
    · rw [if_pos hcd]
    · rw [if_neg hcd, hf c hcd]
  rw [h1, ← Finset.sum_filter, ← Finset.sum_filter]
  have himg : B.filter (fun s => s - d ∈ B) =
      (B.filter (fun c => c + d ∈ B)).image (· + d) := by
    ext t
    simp only [Finset.mem_filter, Finset.mem_image]
    constructor
    · rintro ⟨htB, htd⟩
      refine ⟨t - d, ⟨htd, ?_⟩, ?_⟩ <;>
        · rw [sub_add_cancel]
          try exact htB
    · rintro ⟨c, ⟨hcB, hcd⟩, rfl⟩
      rw [add_sub_cancel_right]
      exact ⟨hcd, hcB⟩
  rw [himg, Finset.sum_image]
  · apply Finset.sum_congr rfl
    intro c _
    rw [add_sub_cancel_right]
  · intro a _ b _ hab
    have := congrArg (fun t => t - d) hab
    simpa [add_sub_cancel_right] using this

lemma sum_gather_component (sw : StillWaterParams) (terr water : GridFn)
    (g : ℚ × ℚ → ℚ) (hg : g (0, 0) = 0) (i : Fin 8) :
    ∑ c ∈ gridCells sw.size_x sw.size_y, g (swr_gather sw terr water c.1 c.2 i) =
    ∑ s ∈ gridCells sw.size_x sw.size_y,
      g (swr_give sw terr water s.1 s.2 (oppositeDir i)) := by
  rw [sum_shift (gridCells sw.size_x sw.size_y) (nOffX i, nOffY i)
    (fun c => g (swr_gather sw terr water c.1 c.2 i))
    (by
      intro c hc
      rw [mem_gridCells] at hc
      push_neg at hc
      have ho : oob sw.size_x sw.size_y (c.1 + nOffX i) (c.2 + nOffY i) := by
        simpa using hc
      dsimp only
      unfold swr_gather
      rw [if_pos ho, hg])]
  apply Finset.sum_congr rfl
  intro s _
  unfold swr_give
  rw [nOffX_oppositeDir, nOffY_oppositeDir, oppositeDir_involutive]
  rw [← sub_eq_add_neg, ← sub_eq_add_neg]
  by_cases ho : oob sw.size_x sw.size_y (s.1 - nOffX i) (s.2 - nOffY i)
  · rw [if_neg (by rw [mem_gridCells]; simpa using ho), if_pos ho, hg]
  · rw [if_pos (by rw [mem_gridCells]; simpa using ho), if_neg ho]
    rfl

/-- C10. The still-water redistribution kernel conserves the grid totals of
the still-water and still-sediment channels in exact arithmetic, for every
input grid and every nonnegative relaxation factor: per cell, the outflow
min(stillWater, relaxation * stillWater * totalOutflowWeight) equals the sum
over the eight directions of the inflow terms min(stillWater * w_i,
relaxation * stillWater * w_i) the neighbors gather from the cell, and hence
the grid sums of both still channels are unchanged by the pass. -/
theorem swr_conservation (sw : StillWaterParams) (terr water : GridFn)
    (hrelax : 0 ≤ sw.still_water_relaxation) :
    (∀ x y : ℤ, ¬ oob sw.size_x sw.size_y x y →
      (swr_outflow sw terr water x y).1 =
        sum8 (fun i => (swr_give sw terr water x y i).1) ∧
      (swr_outflow sw terr water x y).2 =
        sum8 (fun i => (swr_give sw terr water x y i).2)) ∧
    ∑ c ∈ gridCells sw.size_x sw.size_y, (swr_kernel_main sw terr water c.1 c.2).b =
      ∑ c ∈ gridCells sw.size_x sw.size_y, (water c.1 c.2).b ∧
    ∑ c ∈ gridCells sw.size_x sw.size_y, (swr_kernel_main sw terr water c.1 c.2).a =
      ∑ c ∈ gridCells sw.size_x sw.size_y, (water c.1 c.2).a := by
  have hident : ∀ x y : ℤ, ¬ oob sw.size_x sw.size_y x y →
      (swr_outflow sw terr water x y).1 =
        sum8 (fun i => (swr_give sw terr water x y i).1) ∧
      (swr_outflow sw terr water x y).2 =
        sum8 (fun i => (swr_give sw terr water x y i).2) :=
    fun x y hs => swr_outflow_eq_sum_give sw terr water x y hs
  refine ⟨hident, ?_, ?_⟩
  · have hflux : ∑ c ∈ gridCells sw.size_x sw.size_y,
        (swr_inflow sw terr water c.1 c.2).1 =
        ∑ c ∈ gridCells sw.size_x sw.size_y, (swr_outflow sw terr water c.1 c.2).1 := by
      unfold swr_inflow
      dsimp only
      calc ∑ c ∈ gridCells sw.size_x sw.size_y,
            sum8 (fun i => (swr_gather sw terr water c.1 c.2 i).1) =
          ∑ c ∈ gridCells sw.size_x sw.size_y,
            ((swr_gather sw terr water c.1 c.2 0).1 + (swr_gather sw terr water c.1 c.2 1).1 +
             (swr_gather sw terr water c.1 c.2 2).1 + (swr_gather sw terr water c.1 c.2 3).1 +
             (swr_gather sw terr water c.1 c.2 4).1 + (swr_gather sw terr water c.1 c.2 5).1 +
             (swr_gather sw terr water c.1 c.2 6).1 + (swr_gather sw terr water c.1 c.2 7).1) := by
            apply Finset.sum_congr rfl
            intro c _
            simp [sum8]
        _ = ∑ c ∈ gridCells sw.size_x sw.size_y,
              ((swr_give sw terr water c.1 c.2 0).1 + (swr_give sw terr water c.1 c.2 1).1 +
               (swr_give sw terr water c.1 c.2 2).1 + (swr_give sw terr water c.1 c.2 3).1 +
               (swr_give sw terr water c.1 c.2 4).1 + (swr_give sw terr water c.1 c.2 5).1 +
               (swr_give sw terr water c.1 c.2 6).1 + (swr_give sw terr water c.1 c.2 7).1) := by
            simp only [Finset.sum_add_distrib]
            rw [sum_gather_component sw terr water Prod.fst rfl 0,
              sum_gather_component sw terr water Prod.fst rfl 1,
              sum_gather_component sw terr water Prod.fst rfl 2,
              sum_gather_component sw terr water Prod.fst rfl 3,
              sum_gather_component sw terr water Prod.fst rfl 4,
              sum_gather_component sw terr water Prod.fst rfl 5,
              sum_gather_component sw terr water Prod.fst rfl 6,
              sum_gather_component sw terr water Prod.fst rfl 7]
            have h0 : oppositeDir (0 : Fin 8) = 4 := rfl
            have h1 : oppositeDir (1 : Fin 8) = 5 := rfl
            have h2 : oppositeDir (2 : Fin 8) = 6 := rfl
            have h3 : oppositeDir (3 : Fin 8) = 7 := rfl
            have h4 : oppositeDir (4 : Fin 8) = 0 := rfl
            have h5 : oppositeDir (5 : Fin 8) = 1 := rfl
            have h6 : oppositeDir (6 : Fin 8) = 2 := rfl
            have h7 : oppositeDir (7 : Fin 8) = 3 := rfl
            rw [h0, h1, h2, h3, h4, h5, h6, h7]
            ring
        _ = ∑ c ∈ gridCells sw.size_x sw.size_y, (swr_outflow sw terr water c.1 c.2).1 := by
            apply Finset.sum_congr rfl
            intro c hc
            have hin : ¬ oob sw.size_x sw.size_y c.1 c.2 := mem_gridCells.mp hc
            rw [(hident c.1 c.2 hin).1]
            simp [sum8]
    unfold swr_kernel_main
    dsimp only
    rw [Finset.sum_add_distrib, Finset.sum_sub_distrib, hflux, sub_self, add_zero]
  · have hflux : ∑ c ∈ gridCells sw.size_x sw.size_y,
        (swr_inflow sw terr water c.1 c.2).2 =
        ∑ c ∈ gridCells sw.size_x sw.size_y, (swr_outflow sw terr water c.1 c.2).2 := by
      unfold swr_inflow
      dsimp only
      calc ∑ c ∈ gridCells sw.size_x sw.size_y,
            sum8 (fun i => (swr_gather sw terr water c.1 c.2 i).2) =
          ∑ c ∈ gridCells sw.size_x sw.size_y,
            ((swr_gather sw terr water c.1 c.2 0).2 + (swr_gather sw terr water c.1 c.2 1).2 +
             (swr_gather sw terr water c.1 c.2 2).2 + (swr_gather sw terr water c.1 c.2 3).2 +
             (swr_gather sw terr water c.1 c.2 4).2 + (swr_gather sw terr water c.1 c.2 5).2 +
             (swr_gather sw terr water c.1 c.2 6).2 + (swr_gather sw terr water c.1 c.2 7).2) := by
            apply Finset.sum_congr rfl
            intro c _
            simp [sum8]
        _ = ∑ c ∈ gridCells sw.size_x sw.size_y,
              ((swr_give sw terr water c.1 c.2 0).2 + (swr_give sw terr water c.1 c.2 1).2 +
               (swr_give sw terr water c.1 c.2 2).2 + (swr_give sw terr water c.1 c.2 3).2 +
               (swr_give sw terr water c.1 c.2 4).2 + (swr_give sw terr water c.1 c.2 5).2 +
               (swr_give sw terr water c.1 c.2 6).2 + (swr_give sw terr water c.1 c.2 7).2) := by
            simp only [Finset.sum_add_distrib]
            rw [sum_gather_component sw terr water Prod.snd rfl 0,
              sum_gather_component sw terr water Prod.snd rfl 1,
              sum_gather_component sw terr water Prod.snd rfl 2,
              sum_gather_component sw terr water Prod.snd rfl 3,
              sum_gather_component sw terr water Prod.snd rfl 4,
              sum_gather_component sw terr water Prod.snd rfl 5,
              sum_gather_component sw terr water Prod.snd rfl 6,
              sum_gather_component sw terr water Prod.snd rfl 7]
            have h0 : oppositeDir (0 : Fin 8) = 4 := rfl
            have h1 : oppositeDir (1 : Fin 8) = 5 := rfl
            have h2 : oppositeDir (2 : Fin 8) = 6 := rfl
            have h3 : oppositeDir (3 : Fin 8) = 7 := rfl
            have h4 : oppositeDir (4 : Fin 8) = 0 := rfl
            have h5 : oppositeDir (5 : Fin 8) = 1 := rfl
            have h6 : oppositeDir (6 : Fin 8) = 2 := rfl
            have h7 : oppositeDir (7 : Fin 8) = 3 := rfl
            rw [h0, h1, h2, h3, h4, h5, h6, h7]
            ring
        _ = ∑ c ∈ gridCells sw.size_x sw.size_y, (swr_outflow sw terr water c.1 c.2).2 := by
            apply Finset.sum_congr rfl
            intro c hc
            have hin : ¬ oob sw.size_x sw.size_y c.1 c.2 := mem_gridCells.mp hc
            rw [(hident c.1 c.2 hin).2]
            simp [sum8]
    unfold swr_kernel_main
    dsimp only
    rw [Finset.sum_add_distrib, Finset.sum_sub_distrib, hflux, sub_self, add_zero]

end ErosionSim

namespace ErosionSim

lemma spawn_amount_le (p : ErosionParams) (x y : ℤ) :
    spawn_amount p x y ≤ MAX_WATER_PER_CELL * 0.5 := by
  unfold spawn_amount MAX_WATER_PER_CELL
  split <;> norm_num

lemma spawn_amount_eq_zero (p : ErosionParams) (x y : ℤ)
    (h : ¬ should_spawn_droplet p x y) : spawn_amount p x y = 0 := by
  unfold spawn_amount
  rw [if_neg h]

/-- C2 (amended).  The cap of the hydraulic kernel is applied to the gathered
water accumulator before the droplet volume is added, so the written
flowing-water channel is bounded by MAX_WATER_PER_CELL plus the spawned
droplet volume (MAX_WATER_PER_CELL * 0.5); in any invocation in which no
droplet spawns at the cell (in particular every iteration at or past
spawn_cycles) it is bounded by MAX_WATER_PER_CELL; and when the gathered
water exceeds the maximum, the excess is moved to the still-water channel
together with the sediment share proportional to the excess water fraction.
The claim as frozen (output flowing water at most MAX_WATER_PER_CELL in
every iteration, including spawn cycles) fails when a droplet spawns on top
of a full accumulator: see the counterexample. -/
theorem flowing_water_capped (pw : ℚ → ℚ → ℚ) (p : ErosionParams)
    (terr water : GridFn) (x y : ℤ) :
    (erosion_kernel_main pw p terr water x y).2.r ≤
      MAX_WATER_PER_CELL + MAX_WATER_PER_CELL * 0.5 ∧
    (¬ should_spawn_droplet p x y →
      (erosion_kernel_main pw p terr water x y).2.r ≤ MAX_WATER_PER_CELL) ∧
    (p.spawn_cycles ≤ p.iteration →
      (erosion_kernel_main pw p terr water x y).2.r ≤ MAX_WATER_PER_CELL) ∧
    (MAX_WATER_PER_CELL < gathered_water pw p terr water x y →
      (erosion_kernel_main pw p terr water x y).2.r =
        spawn_amount p x y + MAX_WATER_PER_CELL ∧
      (erosion_kernel_main pw p terr water x y).2.b =
        still_water_pre_cap pw p terr water x y +
          (gathered_water pw p terr water x y - MAX_WATER_PER_CELL) ∧
      (erosion_kernel_main pw p terr water x y).2.a =
        still_sediment_pre_cap pw p terr water x y +
          sediment_after_exchange pw p terr water x y *
            ((gathered_water pw p terr water x y - MAX_WATER_PER_CELL) /
              gathered_water pw p terr water x y)) := by
  have hspawn := spawn_amount_le p x y
  have hnospawn : ¬ should_spawn_droplet p x y →
      spawn_amount p x y = 0 := spawn_amount_eq_zero p x y
  unfold erosion_kernel_main
  dsimp only
  by_cases hcap : MAX_WATER_PER_CELL < gathered_water pw p terr water x y
  · rw [if_pos hcap]
    refine ⟨?_, ?_, ?_, ?_⟩
    · dsimp only
      linarith
    · intro hns
      dsimp only
      rw [hnospawn hns]
      unfold MAX_WATER_PER_CELL
      norm_num
    · intro hiter
      have hns : ¬ should_spawn_droplet p x y := by
        intro hsp
        exact absurd hsp.1 (not_lt.mpr hiter)
      dsimp only
      rw [hnospawn hns]
      unfold MAX_WATER_PER_CELL
      norm_num
    · intro _
      exact ⟨rfl, rfl, rfl⟩
  · rw [if_neg hcap]
    have hwle : gathered_water pw p terr water x y ≤ MAX_WATER_PER_CELL := not_lt.mp hcap
    refine ⟨?_, ?_, ?_, fun hc => absurd hc hcap⟩
    · dsimp only
      linarith
    · intro hns
      dsimp only
      rw [hnospawn hns]
      linarith
    · intro hiter
      have hns : ¬ should_spawn_droplet p x y := by
        intro hsp
        exact absurd hsp.1 (not_lt.mpr hiter)
      dsimp only
      rw [hnospawn hns]
      linarith

/-- Math.ceil(sizeX / 2) + 1 in executeErosionSimulation: the number of
logical blocks the orchestrator computes per axis. -/
def margolus_num_blocks (size : ℕ) : ℕ := (size + 1) / 2 + 1

/-- Math.ceil(numBlocks / MARGOLUS_WG): workgroups dispatched per axis
(the shader declares workgroup_size(8,8)). -/
def margolus_workgroups (size : ℕ) : ℕ := (margolus_num_blocks size + 7) / 8

/-- The extent of the dispatched thread domain per axis: workgroups times 8
threads. -/
def margolus_thread_extent (size : ℕ) : ℕ := margolus_workgroups size * 8

/-- u32 wrap-around subtraction (the shader computes (ux - offset_x) & 1u on
u32 values). -/
def u32_sub (a b : ℕ) : ℕ := (a + (U32 - b % U32)) % U32

/-- The checkerboard parity filter of the Margolus shader main: the thread
runs the solver only when both wrapped differences are even. -/
def margolus_parity_match (ox oy x y : ℕ) : Prop :=
  u32_sub x ox % 2 = 0 ∧ u32_sub y oy % 2 = 0

instance margolus_parity_match.instDec (ox oy x y : ℕ) :
    Decidable (margolus_parity_match ox oy x y) := by
  unfold margolus_parity_match; infer_instance

/-- A Margolus invocation at cell (x, y) actually runs the block solver for
sub-pass offset (ox, oy): the thread must exist in the dispatched domain,
lie inside the grid (early exit) and match the checkerboard parity. -/
def margolus_thread_processes (sx sy ox oy x y : ℕ) : Prop :=
  x < margolus_thread_extent sx ∧ y < margolus_thread_extent sy ∧
  x < sx ∧ y < sy ∧ margolus_parity_match ox oy x y

instance margolus_thread_processes.instDec (sx sy ox oy x y : ℕ) :
    Decidable (margolus_thread_processes sx sy ox oy x y) := by
  unfold margolus_thread_processes; infer_instance

/-- The four sub-pass checkerboard offsets of a Margolus pass
(executeErosionSimulation). -/
def margolus_sub_pass_offsets : List (ℕ × ℕ) := [(0, 0), (1, 0), (0, 1), (1, 1)]

/-- C1 (code bug evidence).  At the default grid size 1024 x 1024 the
orchestrator dispatches ceil((ceil(1024/2)+1)/8) = 65 workgroups of 8
threads per axis, a thread domain of only 520 x 520, while the shader
indexes threads by CELL coordinate with a parity filter; the
parity-matching cell (1022, 1022) for sub-pass offset (0, 0) lies inside
the grid but outside the dispatched domain, so its 2x2 block is never
processed, contradicting the claimed full coverage. -/
theorem margolus_dispatch_gap :
    margolus_sub_pass_offsets = [(0, 0), (1, 0), (0, 1), (1, 1)] ∧
    margolus_thread_extent 1024 = 520 ∧
    margolus_parity_match 0 0 1022 1022 ∧
    1022 < 1024 ∧
    ¬ margolus_thread_processes 1024 1024 0 0 1022 1022 := by
  refine ⟨rfl, by decide, by decide, by decide, by decide⟩

end ErosionSim

namespace ErosionSim

/-- One texel of the jump-flood seed/distance grid.  The shader stores the
seed coordinates, the seed height and the Euclidean distance to the seed;
this model stores the squared distance in d2.  The shader only ever compares
stored distances (dist < bestDist between nonnegative values), and squaring
is an order isomorphism on nonnegative reals, so every branch taken is
identical; a stored distance v corresponds to d2 = v^2, in particular the
sentinel distance 1e9 becomes 1e18. -/
structure JCell where
  sx : ℤ
  sy : ℤ
  sh : ℚ
  d2 : ℤ
deriving DecidableEq

/-- The single-seed initial grid of the distance-field scenario of the
claim: the seed record (coordinate (0,0), height, distance 0) at the origin
and the sentinel record (-1, -1, 0, 1e9) everywhere else, as emitted by the
thresholded noise shader. -/
def jfaInit (x y : ℤ) : JCell :=
  if x = 0 ∧ y = 0 then ⟨0, 0, 1, 0⟩ else ⟨-1, -1, 0, 10 ^ 18⟩

/-- The eight neighbor offsets of the JFA shader at step size s. -/
def jfaOffsets (s : ℤ) : List (ℤ × ℤ) :=
  [(s, s), (s, -s), (-s, s), (-s, -s), (s, 0), (-s, 0), (0, s), (0, -s)]

/-- One candidate update of the JFA inner loop: adopt the neighbor seed when
the neighbor lies on the grid, holds a valid seed (seed x coordinate at
least 0) and its seed is strictly closer than the current best. -/
def jfaConsider (W H : ℕ) (g : ℤ → ℤ → JCell) (x y : ℤ) (best : JCell)
    (d : ℤ × ℤ) : JCell :=
  if 0 ≤ x + d.1 ∧ x + d.1 < (W : ℤ) ∧ 0 ≤ y + d.2 ∧ y + d.2 < (H : ℤ) then
    if 0 ≤ (g (x + d.1) (y + d.2)).sx then
      if ((g (x + d.1) (y + d.2)).sx - x) ^ 2 + ((g (x + d.1) (y + d.2)).sy - y) ^ 2 <
          best.d2 then
        ⟨(g (x + d.1) (y + d.2)).sx, (g (x + d.1) (y + d.2)).sy,
         (g (x + d.1) (y + d.2)).sh,
         ((g (x + d.1) (y + d.2)).sx - x) ^ 2 + ((g (x + d.1) (y + d.2)).sy - y) ^ 2⟩
      else best
    else best
  else best

/-- One full JFA pass at step size s (fn main of the JFA shader, for the
cells of the grid). -/
def jfaPass (W H : ℕ) (s : ℤ) (g : ℤ → ℤ → JCell) (x y : ℤ) : JCell :=
  (jfaOffsets s).foldl (jfaConsider W H g x y) (g x y)

/-- The step size of JFA pass i (executeErosionSimulation): 1 on the first
pass, then max(W, H) >> i clamped to at least 1. -/
def jfaStepSize (m i : ℕ) : ℕ := if i = 0 then 1 else max 1 (m >>> i)

/-- The full JFA run: floor(log2(max(W, H))) + 1 passes with the step-size
sequence above, ping-pong buffering folded into function composition. -/
def jfaRun (W H : ℕ) (g : ℤ → ℤ → JCell) : ℤ → ℤ → JCell :=
  (List.range (Nat.log2 (max W H) + 1)).foldl
    (fun acc i => jfaPass W H ((jfaStepSize (max W H) i : ℕ) : ℤ) acc) g

lemma jfaConsider_congr (W H : ℕ) (g g' : ℤ → ℤ → JCell)
    (hgg : ∀ u v, 0 ≤ u → u < (W : ℤ) → 0 ≤ v → v < (H : ℤ) → g u v = g' u v)
    (x y : ℤ) (best : JCell) (d : ℤ × ℤ) :
    jfaConsider W H g x y best d = jfaConsider W H g' x y best d := by
  unfold jfaConsider
  by_cases hin : 0 ≤ x + d.1 ∧ x + d.1 < (W : ℤ) ∧ 0 ≤ y + d.2 ∧ y + d.2 < (H : ℤ)
  · rw [if_pos hin, if_pos hin, hgg (x + d.1) (y + d.2) hin.1 hin.2.1 hin.2.2.1 hin.2.2.2]
  · rw [if_neg hin, if_neg hin]

lemma jfaPass_congr (W H : ℕ) (s : ℤ) (g g' : ℤ → ℤ → JCell)
    (hgg : ∀ u v, 0 ≤ u → u < (W : ℤ) → 0 ≤ v → v < (H : ℤ) → g u v = g' u v)
    (x y : ℤ) (hx : 0 ≤ x) (hxW : x < (W : ℤ)) (hy : 0 ≤ y) (hyH : y < (H : ℤ)) :
    jfaPass W H s g x y = jfaPass W H s g' x y := by
  unfold jfaPass jfaOffsets
  have hc : ∀ (best : JCell) (d : ℤ × ℤ),
      jfaConsider W H g x y best d = jfaConsider W H g' x y best d :=
    jfaConsider_congr W H g g' hgg x y
  simp only [List.foldl_cons, List.foldl_nil, hc, hgg x y hx hxW hy hyH]

/-- The expected grid after the first pass (step 1): the Chebyshev-1
neighborhood of the seed resolved, everything else still sentinel. -/
def jfaExpected1 (x y : ℤ) : JCell :=
  if (x = 0 ∨ x = 1) ∧ (y = 0 ∨ y = 1) then ⟨0, 0, 1, x ^ 2 + y ^ 2⟩
  else ⟨-1, -1, 0, 10 ^ 18⟩

/-- The expected grid after the second pass (step 4). -/
def jfaExpected2 (x y : ℤ) : JCell :=
  if (x = 0 ∨ x = 1 ∨ x = 4 ∨ x = 5) ∧ (y = 0 ∨ y = 1 ∨ y = 4 ∨ y = 5) then
    ⟨0, 0, 1, x ^ 2 + y ^ 2⟩
  else ⟨-1, -1, 0, 10 ^ 18⟩

/-- The expected grid after the third pass (step 2), which already resolves
every cell of the 8 x 8 grid; the fourth pass (step 1) leaves it unchanged. -/
def jfaExpectedFinal (x y : ℤ) : JCell := ⟨0, 0, 1, x ^ 2 + y ^ 2⟩

lemma int_grid_of_fin (P : ℤ → ℤ → Prop) (h : ∀ a b : Fin 8, P (a : ℤ) (b : ℤ)) :
    ∀ u v : ℤ, 0 ≤ u → u < 8 → 0 ≤ v → v < 8 → P u v := by
  intro u v hu hu8 hv hv8
  have hh := h ⟨u.toNat, by omega⟩ ⟨v.toNat, by omega⟩
  have hu' : (((⟨u.toNat, by omega⟩ : Fin 8) : ℕ) : ℤ) = u := by
    simp [Int.toNat_of_nonneg hu]
  have hv' : (((⟨v.toNat, by omega⟩ : Fin 8) : ℕ) : ℤ) = v := by
    simp [Int.toNat_of_nonneg hv]
  rw [hu', hv'] at hh
  exact hh

lemma jfa_pass1_eq : ∀ u v : ℤ, 0 ≤ u → u < 8 → 0 ≤ v → v < 8 →
    jfaPass 8 8 1 jfaInit u v = jfaExpected1 u v :=
  int_grid_of_fin (fun u v => jfaPass 8 8 1 jfaInit u v = jfaExpected1 u v) (by decide)

lemma jfa_pass2_eq : ∀ u v : ℤ, 0 ≤ u → u < 8 → 0 ≤ v → v < 8 →
    jfaPass 8 8 4 jfaExpected1 u v = jfaExpected2 u v :=
  int_grid_of_fin (fun u v => jfaPass 8 8 4 jfaExpected1 u v = jfaExpected2 u v) (by decide)

lemma jfa_pass3_eq : ∀ u v : ℤ, 0 ≤ u → u < 8 → 0 ≤ v → v < 8 →
    jfaPass 8 8 2 jfaExpected2 u v = jfaExpectedFinal u v :=
  int_grid_of_fin (fun u v => jfaPass 8 8 2 jfaExpected2 u v = jfaExpectedFinal u v) (by decide)

lemma jfa_pass4_eq : ∀ u v : ℤ, 0 ≤ u → u < 8 → 0 ≤ v → v < 8 →
    jfaPass 8 8 1 jfaExpectedFinal u v = jfaExpectedFinal u v :=
  int_grid_of_fin (fun u v => jfaPass 8 8 1 jfaExpectedFinal u v = jfaExpectedFinal u v)
    (by decide)

/-- C6. On the 8 x 8 single-seed grid (seed at the origin, sentinel
elsewhere), after the full floor(log2(max(W,H))) + 1 = 4 jump-flood passes
with the implemented step sequence 1, 4, 2, 1, every cell records the seed
coordinate (0, 0) and the exact Euclidean distance to the origin (stated on
squared distances: the recorded d2 equals x^2 + y^2, that is, the recorded
distance equals sqrt(x^2 + y^2)). -/
theorem jfa_single_seed_exact : ∀ x y : Fin 8,
    (jfaRun 8 8 jfaInit ((x : ℕ) : ℤ) ((y : ℕ) : ℤ)).sx = 0 ∧
    (jfaRun 8 8 jfaInit ((x : ℕ) : ℤ) ((y : ℕ) : ℤ)).sy = 0 ∧
    (jfaRun 8 8 jfaInit ((x : ℕ) : ℤ) ((y : ℕ) : ℤ)).d2 =
      ((x : ℕ) : ℤ) ^ 2 + ((y : ℕ) : ℤ) ^ 2 := by
  have hlog : Nat.log2 (max 8 8) + 1 = 4 := by
    rw [show max (8:ℕ) 8 = 8 from max_self 8, Nat.log2_eq_log_two,
      show (8:ℕ) = 2 ^ 3 by norm_num, Nat.log_pow (by norm_num)]
  have hs0 : ((jfaStepSize (max 8 8) 0 : ℕ) : ℤ) = 1 := by decide
  have hs1 : ((jfaStepSize (max 8 8) 1 : ℕ) : ℤ) = 4 := by decide
  have hs2 : ((jfaStepSize (max 8 8) 2 : ℕ) : ℤ) = 2 := by decide
  have hs3 : ((jfaStepSize (max 8 8) 3 : ℕ) : ℤ) = 1 := by decide
  have hrun : ∀ u v : ℤ, jfaRun 8 8 jfaInit u v =
      jfaPass 8 8 1 (jfaPass 8 8 2 (jfaPass 8 8 4 (jfaPass 8 8 1 jfaInit))) u v := by
    intro u v
    unfold jfaRun
    rw [hlog]
    simp only [List.range_succ, List.range_zero, List.nil_append, List.cons_append,
      List.foldl_append, List.foldl_cons, List.foldl_nil]
    rw [hs0, hs1, hs2, hs3]
  have hfinal : ∀ u v : ℤ, 0 ≤ u → u < 8 → 0 ≤ v → v < 8 →
      jfaRun 8 8 jfaInit u v = jfaExpectedFinal u v := by
    intro u v hu hu8 hv hv8
    rw [hrun u v]
    have h12 : ∀ a b : ℤ, 0 ≤ a → a < (8:ℕ) → 0 ≤ b → b < (8:ℕ) →
        jfaPass 8 8 4 (jfaPass 8 8 1 jfaInit) a b = jfaExpected2 a b := by
      intro a b ha ha8 hb hb8
      rw [jfaPass_congr 8 8 4 (jfaPass 8 8 1 jfaInit) jfaExpected1
        (fun c d hc hc8 hd hd8 => jfa_pass1_eq c d hc (by exact_mod_cast hc8) hd
          (by exact_mod_cast hd8)) a b ha ha8 hb hb8]
      exact jfa_pass2_eq a b ha (by exact_mod_cast ha8) hb (by exact_mod_cast hb8)
    have h123 : ∀ a b : ℤ, 0 ≤ a → a < (8:ℕ) → 0 ≤ b → b < (8:ℕ) →
        jfaPass 8 8 2 (jfaPass 8 8 4 (jfaPass 8 8 1 jfaInit)) a b =
          jfaExpectedFinal a b := by
      intro a b ha ha8 hb hb8
      rw [jfaPass_congr 8 8 2 (jfaPass 8 8 4 (jfaPass 8 8 1 jfaInit)) jfaExpected2
        h12 a b ha ha8 hb hb8]
      exact jfa_pass3_eq a b ha (by exact_mod_cast ha8) hb (by exact_mod_cast hb8)
    rw [jfaPass_congr 8 8 1 (jfaPass 8 8 2 (jfaPass 8 8 4 (jfaPass 8 8 1 jfaInit)))
      jfaExpectedFinal h123 u v hu (by exact_mod_cast hu8) hv (by exact_mod_cast hv8)]
    exact jfa_pass4_eq u v hu hu8 hv hv8
  intro x y
  have hx0 : (0 : ℤ) ≤ ((x : ℕ) : ℤ) := Int.ofNat_nonneg _
  have hx8 : ((x : ℕ) : ℤ) < 8 := by exact_mod_cast x.isLt
  have hy0 : (0 : ℤ) ≤ ((y : ℕ) : ℤ) := Int.ofNat_nonneg _
  have hy8 : ((y : ℕ) : ℤ) < 8 := by exact_mod_cast y.isLt
  rw [hfinal ((x : ℕ) : ℤ) ((y : ℕ) : ℤ) hx0 hx8 hy0 hy8]
  exact ⟨rfl, rfl, rfl⟩

end ErosionSim

namespace ErosionSim

lemma nOffX_0 : nOffX 0 = -1 := rfl

lemma nOffX_1 : nOffX 1 = 0 := rfl

lemma nOffX_2 : nOffX 2 = 1 := rfl

lemma nOffX_3 : nOffX 3 = 1 := rfl

lemma nOffX_4 : nOffX 4 = 1 := rfl

lemma nOffX_5 : nOffX 5 = 0 := rfl

lemma nOffX_6 : nOffX 6 = -1 := rfl

lemma nOffX_7 : nOffX 7 = -1 := rfl

lemma nOffY_0 : nOffY 0 = 1 := rfl

lemma nOffY_1 : nOffY 1 = 1 := rfl

lemma nOffY_2 : nOffY 2 = 1 := rfl

lemma nOffY_3 : nOffY 3 = 0 := rfl

lemma nOffY_4 : nOffY 4 = -1 := rfl

lemma nOffY_5 : nOffY 5 = -1 := rfl

lemma nOffY_6 : nOffY 6 = -1 := rfl

lemma nOffY_7 : nOffY 7 = 0 := rfl

lemma nInvDist_1 : nInvDist 1 = 1 := rfl

lemma nInvDist_3 : nInvDist 3 = 1 := rfl

lemma nInvDist_5 : nInvDist 5 = 1 := rfl

lemma nInvDist_7 : nInvDist 7 = 1 := rfl

lemma oppositeDir_7 : oppositeDir 7 = 3 := rfl

/-- The pow instantiation of the concrete scenarios: pw a e = a, which is
positive on positive bases like the WGSL pow built-in.  In each scenario
the one downhill cell has a single positive raw weight, so after the
division by the total the normalized weights do not depend on the chosen
pow at all. -/
def pwId : ℚ → ℚ → ℚ := fun a _ => a

lemma pwId_pos : ∀ a e : ℚ, 0 < a → 0 < pwId a e := fun _ _ ha => ha

/-- Terrain of the 2 x 1 scenarios: a high cell A = (0,0) at height 10 and
a low cell B = (1,0) at height 0. -/
def terrAB : GridFn := fun x _ => if x = 0 then ⟨10, 0, 0, 0⟩ else ⟨0, 0, 0, 0⟩

/-- Water of the cap scenario: one unit of flowing water at A, nothing
else. -/
def waterCap : GridFn := fun x _ => if x = 0 then ⟨1, 0, 0, 0⟩ else ⟨0, 0, 0, 0⟩

/-- Configuration of the cap scenario: 2 x 1 grid, iteration 0 of 1 spawn
cycle, no evaporation or deposition, spawn density 1, water height factor
1, flow depth weight 0.25, shear thresholds at their defaults. -/
def cfgCap : ErosionParams :=
  ⟨2, 1, 0, 1, 1, 0, 0, 1, 0, 1, 0, 1 / 4, 1 / 2000000, 1 / 200000⟩

lemma effCap_A : get_effective_height cfgCap terrAB waterCap 0 0 = 41 / 4 := by
  norm_num [get_effective_height, get_terrain_height, get_water_data, oob, cfgCap,
    terrAB, waterCap]

lemma effCap_B : get_effective_height cfgCap terrAB waterCap 1 0 = 0 := by
  norm_num [get_effective_height, get_terrain_height, get_water_data, oob, cfgCap,
    terrAB, waterCap]

lemma cfgCap_sx : cfgCap.size_x = 2 := rfl

lemma cfgCap_sy : cfgCap.size_y = 1 := rfl

lemma cfgCap_whf : cfgCap.water_height_factor = 1 := rfl

lemma cfgCap_fdw : cfgCap.flow_depth_weight = 1 / 4 := rfl

lemma cfgCap_relax : cfgCap.still_water_relaxation = 0 := rfl

lemma cfgCap_evap : cfgCap.evap_rate = 0 := rfl

lemma cfgCap_dep : cfgCap.deposition_rate = 0 := rfl

lemma rawCap_A : sum8 (raw_flow_weight pwId cfgCap terrAB waterCap 0 0) = 41 / 4 ∧
    raw_flow_weight pwId cfgCap terrAB waterCap 0 0 3 = 41 / 4 := by
  have h0 : raw_flow_weight pwId cfgCap terrAB waterCap 0 0 0 = 0 := by
    norm_num [raw_flow_weight, nOffX_0, nOffY_0, oob, cfgCap_sx, cfgCap_sy]
  have h1 : raw_flow_weight pwId cfgCap terrAB waterCap 0 0 1 = 0 := by
    norm_num [raw_flow_weight, nOffX_1, nOffY_1, oob, cfgCap_sx, cfgCap_sy]
  have h2 : raw_flow_weight pwId cfgCap terrAB waterCap 0 0 2 = 0 := by
    norm_num [raw_flow_weight, nOffX_2, nOffY_2, oob, cfgCap_sx, cfgCap_sy]
  have h3 : raw_flow_weight pwId cfgCap terrAB waterCap 0 0 3 = 41 / 4 := by
    norm_num [raw_flow_weight, nOffX_3, nOffY_3, nInvDist_3, oob, cfgCap_sx, cfgCap_sy,
      pwId, effCap_A, effCap_B, max_def]
  have h4 : raw_flow_weight pwId cfgCap terrAB waterCap 0 0 4 = 0 := by
    norm_num [raw_flow_weight, nOffX_4, nOffY_4, oob, cfgCap_sx, cfgCap_sy]
  have h5 : raw_flow_weight pwId cfgCap terrAB waterCap 0 0 5 = 0 := by
    norm_num [raw_flow_weight, nOffX_5, nOffY_5, oob, cfgCap_sx, cfgCap_sy]
  have h6 : raw_flow_weight pwId cfgCap terrAB waterCap 0 0 6 = 0 := by
    norm_num [raw_flow_weight, nOffX_6, nOffY_6, oob, cfgCap_sx, cfgCap_sy]
  have h7 : raw_flow_weight pwId cfgCap terrAB waterCap 0 0 7 = 0 := by
    norm_num [raw_flow_weight, nOffX_7, nOffY_7, oob, cfgCap_sx, cfgCap_sy]
  constructor
  · unfold sum8
    rw [h0, h1, h2, h3, h4, h5, h6, h7]
    norm_num
  · exact h3

lemma weightsCap_A3 : compute_normalized_flow_weights pwId cfgCap terrAB waterCap 0 0 3 = 1 := by
  unfold compute_normalized_flow_weights
  rw [rawCap_A.1, rawCap_A.2, if_pos (by norm_num : (0:ℚ) < 41 / 4)]
  norm_num

lemma sumRawCap_B : sum8 (raw_flow_weight pwId cfgCap terrAB waterCap 1 0) = 0 := by
  have h0 : raw_flow_weight pwId cfgCap terrAB waterCap 1 0 0 = 0 := by
    norm_num [raw_flow_weight, nOffX_0, nOffY_0, oob, cfgCap_sx, cfgCap_sy]
  have h1 : raw_flow_weight pwId cfgCap terrAB waterCap 1 0 1 = 0 := by
    norm_num [raw_flow_weight, nOffX_1, nOffY_1, oob, cfgCap_sx, cfgCap_sy]
  have h2 : raw_flow_weight pwId cfgCap terrAB waterCap 1 0 2 = 0 := by
    norm_num [raw_flow_weight, nOffX_2, nOffY_2, oob, cfgCap_sx, cfgCap_sy]
  have h3 : raw_flow_weight pwId cfgCap terrAB waterCap 1 0 3 = 0 := by
    norm_num [raw_flow_weight, nOffX_3, nOffY_3, oob, cfgCap_sx, cfgCap_sy]
  have h4 : raw_flow_weight pwId cfgCap terrAB waterCap 1 0 4 = 0 := by
    norm_num [raw_flow_weight, nOffX_4, nOffY_4, oob, cfgCap_sx, cfgCap_sy]
  have h5 : raw_flow_weight pwId cfgCap terrAB waterCap 1 0 5 = 0 := by
    norm_num [raw_flow_weight, nOffX_5, nOffY_5, oob, cfgCap_sx, cfgCap_sy]
  have h6 : raw_flow_weight pwId cfgCap terrAB waterCap 1 0 6 = 0 := by
    norm_num [raw_flow_weight, nOffX_6, nOffY_6, oob, cfgCap_sx, cfgCap_sy]
  have h7 : raw_flow_weight pwId cfgCap terrAB waterCap 1 0 7 = 0 := by
    norm_num [raw_flow_weight, nOffX_7, nOffY_7, oob, cfgCap_sx, cfgCap_sy,
      effCap_A, effCap_B]
  unfold sum8
  rw [h0, h1, h2, h3, h4, h5, h6, h7]
  norm_num

lemma weightsCap_B (i : Fin 8) :
    compute_normalized_flow_weights pwId cfgCap terrAB waterCap 1 0 i = 0 := by
  unfold compute_normalized_flow_weights
  rw [sumRawCap_B, if_neg (lt_irrefl 0)]

lemma totalCap_B : total_flow_weight_at pwId cfgCap terrAB waterCap 1 0 = 0 := by
  unfold total_flow_weight_at sum8
  rw [weightsCap_B 0, weightsCap_B 1, weightsCap_B 2, weightsCap_B 3, weightsCap_B 4,
    weightsCap_B 5, weightsCap_B 6, weightsCap_B 7]
  norm_num

lemma gatherCap_B : accumulate_water_and_sediment pwId cfgCap terrAB waterCap 1 0 = (1, 0) := by
  have g0 : gather_flow pwId cfgCap terrAB waterCap 1 0 0 = (0, 0) := by
    unfold gather_flow
    rw [nOffX_0, nOffY_0]
    norm_num [oob, cfgCap_sx, cfgCap_sy]
  have g1 : gather_flow pwId cfgCap terrAB waterCap 1 0 1 = (0, 0) := by
    unfold gather_flow
    rw [nOffX_1, nOffY_1]
    norm_num [oob, cfgCap_sx, cfgCap_sy]
  have g2 : gather_flow pwId cfgCap terrAB waterCap 1 0 2 = (0, 0) := by
    unfold gather_flow
    rw [nOffX_2, nOffY_2]
    norm_num [oob, cfgCap_sx, cfgCap_sy]
  have g3 : gather_flow pwId cfgCap terrAB waterCap 1 0 3 = (0, 0) := by
    unfold gather_flow
    rw [nOffX_3, nOffY_3]
    norm_num [oob, cfgCap_sx, cfgCap_sy]
  have g4 : gather_flow pwId cfgCap terrAB waterCap 1 0 4 = (0, 0) := by
    unfold gather_flow
    rw [nOffX_4, nOffY_4]
    norm_num [oob, cfgCap_sx, cfgCap_sy]
  have g5 : gather_flow pwId cfgCap terrAB waterCap 1 0 5 = (0, 0) := by
    unfold gather_flow
    rw [nOffX_5, nOffY_5]
    norm_num [oob, cfgCap_sx, cfgCap_sy]
  have g6 : gather_flow pwId cfgCap terrAB waterCap 1 0 6 = (0, 0) := by
    unfold gather_flow
    rw [nOffX_6, nOffY_6]
    norm_num [oob, cfgCap_sx, cfgCap_sy]
  have g7 : gather_flow pwId cfgCap terrAB waterCap 1 0 7 = (1, 0) := by
    unfold gather_flow
    rw [nOffX_7, nOffY_7]
    norm_num [oob, cfgCap_sx, cfgCap_sy, get_water_data, waterCap, effCap_A, effCap_B,
      oppositeDir_7, weightsCap_A3]
  unfold accumulate_water_and_sediment
  simp only [sum8]
  rw [Prod.mk.injEq]
  constructor
  · rw [g0, g1, g2, g3, g4, g5, g6, g7]
    norm_num
  · rw [g0, g1, g2, g3, g4, g5, g6, g7]
    norm_num

end ErosionSim

namespace ErosionSim

/-- C2 counterexample.  On a 2 x 1 grid where the high cell A = (0,0) holds
one full unit of flowing water and routes all of it to the low cell
B = (1,0), iteration 0 of a spawn cycle with spawn density 1 also drops a
droplet of MAX_WATER_PER_CELL * 0.5 on B; the kernel caps only the gathered
accumulator, so the flowing-water channel written at B is 1.5, strictly
above MAX_WATER_PER_CELL, refuting the claim for spawn-cycle iterations. -/
theorem flowing_water_cap_counterexample :
    MAX_WATER_PER_CELL < (erosion_kernel_main pwId cfgCap terrAB waterCap 1 0).2.r := by
  have hrem : remobilized pwId cfgCap terrAB waterCap 1 0 = (0, 0) := by
    unfold remobilized
    rw [if_neg]
    intro hc
    have : (waterCap 1 0).b = 0 := by norm_num [waterCap]
    rw [this] at hc
    exact lt_irrefl 0 hc.1
  have hgw : gathered_water pwId cfgCap terrAB waterCap 1 0 = 1 := by
    unfold gathered_water
    rw [gatherCap_B, hrem]
    norm_num [cfgCap_evap]
  have hspawn : should_spawn_droplet cfgCap 1 0 := by
    unfold should_spawn_droplet
    refine ⟨by decide, ?_⟩
    have hlt : (pcg2d (((1 : ℤ).toNat + cfgCap.random_seed) % U32)
        (((0 : ℤ).toNat + cfgCap.iteration) % U32)).1 < 4294967295 := by decide
    unfold hash_to_float
    rw [show cfgCap.spawn_density = (1 : ℚ) from rfl, div_lt_one (by norm_num)]
    exact_mod_cast hlt
  have hsp_amt : spawn_amount cfgCap 1 0 = 1 / 2 := by
    unfold spawn_amount MAX_WATER_PER_CELL
    rw [if_pos hspawn]
    norm_num
  unfold erosion_kernel_main
  dsimp only
  rw [if_neg (by rw [hgw]; unfold MAX_WATER_PER_CELL; norm_num)]
  dsimp only
  rw [hsp_amt, hgw]
  unfold MAX_WATER_PER_CELL
  norm_num

/-- Water of the relaxation scenario: half a unit of still water at the high
cell A, nothing elsewhere. -/
def waterStill : GridFn := fun x _ => if x = 0 then ⟨0, 0, 1 / 2, 0⟩ else ⟨0, 0, 0, 0⟩

/-- Configuration of the relaxation scenario: as the cap scenario but with
still-water relaxation 3 (above 1), no spawn cycles and spawn density 0. -/
def cfgRelax : ErosionParams :=
  ⟨2, 1, 0, 1, 0, 0, 0, 1, 3, 0, 0, 1 / 4, 1 / 2000000, 1 / 200000⟩

lemma cfgRelax_sx : cfgRelax.size_x = 2 := rfl

lemma cfgRelax_sy : cfgRelax.size_y = 1 := rfl

lemma cfgRelax_relax : cfgRelax.still_water_relaxation = 3 := rfl

lemma cfgRelax_evap : cfgRelax.evap_rate = 0 := rfl

lemma effRelax_A : get_effective_height cfgRelax terrAB waterStill 0 0 = 21 / 2 := by
  norm_num [get_effective_height, get_terrain_height, get_water_data, oob, cfgRelax,
    terrAB, waterStill]

lemma effRelax_B : get_effective_height cfgRelax terrAB waterStill 1 0 = 0 := by
  norm_num [get_effective_height, get_terrain_height, get_water_data, oob, cfgRelax,
    terrAB, waterStill]

lemma rawRelax_A : sum8 (raw_flow_weight pwId cfgRelax terrAB waterStill 0 0) = 21 / 2 ∧
    raw_flow_weight pwId cfgRelax terrAB waterStill 0 0 3 = 21 / 2 := by
  have h0 : raw_flow_weight pwId cfgRelax terrAB waterStill 0 0 0 = 0 := by
    norm_num [raw_flow_weight, nOffX_0, nOffY_0, oob, cfgRelax_sx, cfgRelax_sy]
  have h1 : raw_flow_weight pwId cfgRelax terrAB waterStill 0 0 1 = 0 := by
    norm_num [raw_flow_weight, nOffX_1, nOffY_1, oob, cfgRelax_sx, cfgRelax_sy]
  have h2 : raw_flow_weight pwId cfgRelax terrAB waterStill 0 0 2 = 0 := by
    norm_num [raw_flow_weight, nOffX_2, nOffY_2, oob, cfgRelax_sx, cfgRelax_sy]
  have h3 : raw_flow_weight pwId cfgRelax terrAB waterStill 0 0 3 = 21 / 2 := by
    norm_num [raw_flow_weight, nOffX_3, nOffY_3, nInvDist_3, oob, cfgRelax_sx, cfgRelax_sy,
      pwId, effRelax_A, effRelax_B, max_def]
  have h4 : raw_flow_weight pwId cfgRelax terrAB waterStill 0 0 4 = 0 := by
    norm_num [raw_flow_weight, nOffX_4, nOffY_4, oob, cfgRelax_sx, cfgRelax_sy]
  have h5 : raw_flow_weight pwId cfgRelax terrAB waterStill 0 0 5 = 0 := by
    norm_num [raw_flow_weight, nOffX_5, nOffY_5, oob, cfgRelax_sx, cfgRelax_sy]
  have h6 : raw_flow_weight pwId cfgRelax terrAB waterStill 0 0 6 = 0 := by
    norm_num [raw_flow_weight, nOffX_6, nOffY_6, oob, cfgRelax_sx, cfgRelax_sy]
  have h7 : raw_flow_weight pwId cfgRelax terrAB waterStill 0 0 7 = 0 := by
    norm_num [raw_flow_weight, nOffX_7, nOffY_7, oob, cfgRelax_sx, cfgRelax_sy]
  constructor
  · unfold sum8
    rw [h0, h1, h2, h3, h4, h5, h6, h7]
    norm_num
  · exact h3

lemma weightsRelax_A : ∀ i : Fin 8,
    compute_normalized_flow_weights pwId cfgRelax terrAB waterStill 0 0 i =
      raw_flow_weight pwId cfgRelax terrAB waterStill 0 0 i / (21 / 2) := by
  intro i
  unfold compute_normalized_flow_weights
  rw [rawRelax_A.1, if_pos (by norm_num : (0:ℚ) < 21 / 2)]

lemma totalRelax_A : total_flow_weight_at pwId cfgRelax terrAB waterStill 0 0 = 1 := by
  unfold total_flow_weight_at
  unfold sum8
  rw [weightsRelax_A 0, weightsRelax_A 1, weightsRelax_A 2, weightsRelax_A 3,
    weightsRelax_A 4, weightsRelax_A 5, weightsRelax_A 6, weightsRelax_A 7]
  have hs := rawRelax_A.1
  unfold sum8 at hs
  field_simp
  linarith [hs]

lemma remobRelax_A : remobilized pwId cfgRelax terrAB waterStill 0 0 = (1, 0) := by
  unfold remobilized
  rw [if_pos ⟨by norm_num [waterStill], by rw [totalRelax_A]; norm_num⟩]
  rw [Prod.mk.injEq]
  constructor
  · norm_num [waterStill, cfgRelax_relax, MAX_WATER_PER_CELL, min_def]
  · norm_num [waterStill]

lemma stillPreRelax_A : still_water_pre_cap pwId cfgRelax terrAB waterStill 0 0 = -(1 / 2) := by
  unfold still_water_pre_cap
  rw [remobRelax_A]
  rw [if_neg (by
    intro hp
    have := hp.1
    unfold pit_active at hp
    rw [totalRelax_A] at hp
    exact absurd hp.1 (by norm_num))]
  norm_num [waterStill]

/-- C3 counterexample.  With still-water relaxation 3 (the claim quantifies
over every configuration), the high cell A holding half a unit of still
water remobilizes min(0.5 * 3, MAX_WATER_PER_CELL) = 1 unit, more than its
stock, and the hydraulic pass writes still water -0.5 at A: a negative
channel. -/
theorem still_water_negative_counterexample :
    (erosion_kernel_main pwId cfgRelax terrAB waterStill 0 0).2.b < 0 := by
  have hacc : accumulate_water_and_sediment pwId cfgRelax terrAB waterStill 0 0 = (0, 0) := by
    have g3 : gather_flow pwId cfgRelax terrAB waterStill 0 0 3 = (0, 0) := by
      unfold gather_flow
      rw [nOffX_3, nOffY_3]
      norm_num [oob, cfgRelax_sx, cfgRelax_sy, get_water_data, waterStill]
    have g0 : gather_flow pwId cfgRelax terrAB waterStill 0 0 0 = (0, 0) := by
      unfold gather_flow
      rw [nOffX_0, nOffY_0]
      norm_num [oob, cfgRelax_sx, cfgRelax_sy]
    have g1 : gather_flow pwId cfgRelax terrAB waterStill 0 0 1 = (0, 0) := by
      unfold gather_flow
      rw [nOffX_1, nOffY_1]
      norm_num [oob, cfgRelax_sx, cfgRelax_sy]
    have g2 : gather_flow pwId cfgRelax terrAB waterStill 0 0 2 = (0, 0) := by
      unfold gather_flow
      rw [nOffX_2, nOffY_2]
      norm_num [oob, cfgRelax_sx, cfgRelax_sy]
    have g4 : gather_flow pwId cfgRelax terrAB waterStill 0 0 4 = (0, 0) := by
      unfold gather_flow
      rw [nOffX_4, nOffY_4]
      norm_num [oob, cfgRelax_sx, cfgRelax_sy]
    have g5 : gather_flow pwId cfgRelax terrAB waterStill 0 0 5 = (0, 0) := by
      unfold gather_flow
      rw [nOffX_5, nOffY_5]
      norm_num [oob, cfgRelax_sx, cfgRelax_sy]
    have g6 : gather_flow pwId cfgRelax terrAB waterStill 0 0 6 = (0, 0) := by
      unfold gather_flow
      rw [nOffX_6, nOffY_6]
      norm_num [oob, cfgRelax_sx, cfgRelax_sy]
    have g7 : gather_flow pwId cfgRelax terrAB waterStill 0 0 7 = (0, 0) := by
      unfold gather_flow
      rw [nOffX_7, nOffY_7]
      norm_num [oob, cfgRelax_sx, cfgRelax_sy]
    unfold accumulate_water_and_sediment
    simp only [sum8]
    rw [Prod.mk.injEq]
    constructor
    · rw [g0, g1, g2, g3, g4, g5, g6, g7]
      norm_num
    · rw [g0, g1, g2, g3, g4, g5, g6, g7]
      norm_num
  have hgw : gathered_water pwId cfgRelax terrAB waterStill 0 0 = 1 := by
    unfold gathered_water
    rw [hacc, remobRelax_A]
    norm_num [cfgRelax_evap]
  unfold erosion_kernel_main
  dsimp only
  rw [if_neg (by rw [hgw]; unfold MAX_WATER_PER_CELL; norm_num)]
  dsimp only
  rw [stillPreRelax_A]
  norm_num

end ErosionSim

namespace ErosionSim

/-- Terrain with heights 0, 1, 2, 3 on the 2 x 2 block at the origin. -/
def terrSteps : GridFn := fun x y => ⟨(x : ℚ) + 2 * (y : ℚ), 0, 0, 0⟩

/-- Water with 3/4 units of still water everywhere. -/
def waterQuarter : GridFn := fun _ _ => ⟨0, 0, 3 / 4, 0⟩

/-- Margolus parameters of the witness scenario: 2 x 2 grid, offsets 0,
8 bisection iterations. -/
def mpW : MargolusParams := ⟨2, 2, 0, 0, 8⟩

/-- Still-water parameters of the Margolus witness: water height factor 1. -/
def swW : StillWaterParams := ⟨2, 2, 1, 0⟩

/-- Still-water parameters of the redistribution witness: relaxation 1/2. -/
def swW2 : StillWaterParams := ⟨2, 1, 1, 1 / 2⟩

theorem flowing_water_capped_witness :
    ¬ should_spawn_droplet cfgRelax 0 0 ∧
    (erosion_kernel_main pwId cfgRelax terrAB waterStill 0 0).2.r ≤ MAX_WATER_PER_CELL := by
  have hns : ¬ should_spawn_droplet cfgRelax 0 0 := by
    intro h
    exact absurd h.1 (by decide)
  exact ⟨hns, (flowing_water_capped pwId cfgRelax terrAB waterStill 0 0).2.1 hns⟩

theorem water_channels_nonneg_witness :
    nonneg4 (erosion_kernel_main pwId cfgCap terrAB waterCap 0 0).2 := by
  have h := water_channels_nonneg pwId pwId_pos cfgCap swW2 mpW terrAB waterCap
    (by norm_num [cfgCap_relax]) (by norm_num [cfgCap_relax])
    (by norm_num [cfgCap_evap]) (by norm_num [cfgCap_evap])
    (by norm_num [cfgCap_dep]) (by norm_num [cfgCap_dep])
    (by norm_num [swW2])
    (by
      intro u v
      unfold waterCap nonneg4
      by_cases hu : u = 0
      · rw [if_pos hu]
        norm_num
      · rw [if_neg hu]
        norm_num)
  exact h.1 0 0

theorem margolus_block_mass_conservation_witness :
    |margolus_still_after_height mpW swW terrSteps waterQuarter 0 0 -
        margolus_total_water_height mpW swW terrSteps waterQuarter 0 0| ≤
      margolus_tolerance mpW swW terrSteps waterQuarter 0 0 :=
  (margolus_block_mass_conservation mpW swW terrSteps waterQuarter 0 0
    (by norm_num [m_in_bounds, mpW])
    (by norm_num [swW])
    (by norm_num [waterQuarter]) (by norm_num [waterQuarter])
    (by norm_num [waterQuarter]) (by norm_num [waterQuarter])).1

theorem bisection_solver_concrete_witness :
    water_needed [0, 1, 2, 3] 1 ≤ water_needed [0, 1, 2, 3] 2 ∧
    |water_needed [0, 1, 2, 3] (binary_search_water_level [0, 1, 2, 3] 3 4) - 3| ≤
      15 / 2 ^ 4 :=
  ⟨bisection_solver_concrete.1 [0, 1, 2, 3] 1 2 (by norm_num),
   bisection_solver_concrete.2 4⟩

theorem flow_weights_partition_of_unity_witness :
    sum8 (compute_normalized_flow_weights pwId cfgCap terrAB waterCap 0 0) = 1 := by
  apply (flow_weights_partition_of_unity pwId pwId_pos cfgCap terrAB waterCap 0 0).2.1
  refine ⟨3, ?_⟩
  unfold downhill
  constructor
  · rw [nOffX_3, nOffY_3]
    norm_num [oob, cfgCap_sx, cfgCap_sy]
  · rw [nOffX_3, nOffY_3]
    norm_num [effCap_A, effCap_B]

theorem closed_basin_boundary_weights_witness :
    get_effective_height cfgCap terrAB waterCap (1 + nOffX 3) (0 + nOffY 3) = 9999 ∧
    compute_normalized_flow_weights pwId cfgCap terrAB waterCap 1 0 3 = 0 :=
  closed_basin_boundary_weights pwId cfgCap terrAB waterCap 1 0 3
    (by rw [nOffX_3, nOffY_3]; norm_num [oob, cfgCap_sx, cfgCap_sy])
    (by rw [effCap_B]; norm_num)

theorem swr_conservation_witness :
    ∑ c ∈ gridCells swW2.size_x swW2.size_y,
        (swr_kernel_main swW2 terrAB waterStill c.1 c.2).b =
      ∑ c ∈ gridCells swW2.size_x swW2.size_y, (waterStill c.1 c.2).b :=
  (swr_conservation swW2 terrAB waterStill (by norm_num [swW2])).2.1

end ErosionSim
